import Mathlib

/-!
Verification development for the NewroHelp self-hosted voice orchestrator.

The definitions below are shallow embeddings of the repository's JavaScript
source: the audio codec (`src/utils/audio.js`, final iteration), the OpenAI
realtime client's parallel tool-call aggregation (`src/openai/realtime.js`,
final iteration), the sentence-chunking regex and the turn-taking pipeline
(`src/orchestrator/pipeline.js`), and the session/registry cleanup path
(`src/orchestrator/callmanager.js`).
-/

/- ───────────────────────── Audio codec (audio.js) ───────────────────────── -/

/-- `EXP_LUT` from the μ-law decode table builder in audio.js. -/
def EXP_LUT : List Int := [0, 132, 396, 924, 1980, 4092, 8316, 16764]

/-- One entry of the 256-entry `MULAW_DECODE` table:
`byte = ~i & 0xFF; sample = EXP_LUT[exp] + (mant << (exp + 3))`, sign applied.
Since the table index satisfies `i < 256`, `~i & 0xFF = 255 - i % 256`. -/
def mulawDecode (i : Nat) : Int :=
  let byte := 255 - (i % 256)
  let sign := byte &&& 128
  let expo := (byte >>> 4) &&& 7
  let mant := byte &&& 15
  let sample : Int := EXP_LUT.getD expo 0 + Int.ofNat (mant <<< (expo + 3))
  if sign ≠ 0 then -sample else sample

/-- The segment-scan loop of `mulawEncode`:
`for (let mask = 0x4000; (sample & mask) === 0 && exp > 0; exp--, mask >>= 1)`. -/
def findExpGo : Nat → Nat → Nat → Nat
  | 0, _, _ => 0
  | e + 1, mask, v => if v &&& mask ≠ 0 then e + 1 else findExpGo e (mask / 2) v

/-- `mulawEncode` from audio.js (final iteration): clip to 32635, add bias 132,
find the segment by scanning for the highest set bit, then complement.  The
final `~x & 0xFF` equals `255 - x` because `x = sign | exp<<4 | mant ≤ 255`. -/
def mulawEncode (sample : Int) : Nat :=
  let sign : Nat := if sample < 0 then 128 else 0
  let mag : Int := if sample < 0 then -sample else sample
  let clipped : Int := if mag > 32635 then 32635 else mag
  let v : Nat := (clipped + 132).toNat
  let expo := findExpGo 7 16384 v
  let mant := (v >>> (expo + 3)) &&& 15
  255 - (sign ||| (expo <<< 4) ||| mant)

/- ──────── Upsampling and WAV framing (audio.js, final iteration) ────────── -/

/-- `Math.round((s0 + s1) / 2)` on integer samples: JS rounds half toward
positive infinity, which on `(a+b)/2` equals `⌊(a + b + 1) / 2⌋`. -/
def jsRoundMean (a b : Int) : Int := Int.fdiv (a + b + 1) 2

/-- The upsampling loop of `twilioMulawToPcm16`: each decoded sample except
the last is emitted followed by the interpolated midpoint with its successor;
the final sample is emitted twice. -/
def upsamplePairs : List Int → List Int
  | [] => []
  | [x] => [x, x]
  | x :: y :: rest => x :: jsRoundMean x y :: upsamplePairs (y :: rest)

/-- `buf.writeInt16LE s`: the two little-endian bytes of `s` as a 16-bit
two's-complement value. -/
def le16 (s : Int) : List Nat :=
  [((s.emod 65536).toNat) % 256, ((s.emod 65536).toNat) / 256]

/-- `twilioMulawToPcm16` from audio.js (final iteration): decode each μ-law
byte through the `MULAW_DECODE` table, upsample 8 kHz → 16 kHz by linear
interpolation (duplicating the final sample), serialize as PCM16 LE. -/
def twilioMulawToPcm16 (mu : List Nat) : List Nat :=
  (upsamplePairs (mu.map mulawDecode)).flatMap le16

/-- The sample sequence described by claim C10: for each `i < n - 1` the
decoded sample followed by the rounded arithmetic mean of it and its
successor, then the final decoded sample twice. -/
def c10SpecSamples (d : List Int) : List Int :=
  ((List.range (d.length - 1)).flatMap fun i =>
    [d.getD i 0, jsRoundMean (d.getD i 0) (d.getD (i + 1) 0)]) ++
  [(d.getLast?).getD 0, (d.getLast?).getD 0]

/- ───────────── base64 WAV → PCM16 (audio.js, final iteration) ───────────── -/

/-- `buf.toString('ascii', i, i + 1)`: Node's ascii decoding masks each byte
to 7 bits. -/
def asciiByte (bytes : List Nat) (i : Nat) : Nat := bytes.getD i 0 &&& 127

/-- The `RIFF` magic check `wav.toString('ascii', 0, 4) === 'RIFF'`. -/
def isRiff (bytes : List Nat) : Bool :=
  (asciiByte bytes 0 == 82) && (asciiByte bytes 1 == 73) &&
    (asciiByte bytes 2 == 70) && (asciiByte bytes 3 == 70)

/-- The `chunkId === 'data'` comparison at chunk offset `o`. -/
def isDataChunkId (bytes : List Nat) (o : Nat) : Bool :=
  (asciiByte bytes o == 100) && (asciiByte bytes (o + 1) == 97) &&
    (asciiByte bytes (o + 2) == 116) && (asciiByte bytes (o + 3) == 97)

/-- `wav.readUInt32LE o`. -/
def readUInt32LE (bytes : List Nat) (o : Nat) : Nat :=
  bytes.getD o 0 + 256 * bytes.getD (o + 1) 0 + 65536 * bytes.getD (o + 2) 0 +
    16777216 * bytes.getD (o + 3) 0

/-- The chunk-walking loop of `base64ToPcm16`, rendered with explicit fuel so
that it stays executable; the loop advances by at least 8 bytes per
iteration, so any `fuel ≥ bytes.length - offset` reproduces the `while`
loop exactly (the fuel-0 default coincides with the loop-exit fallback
`wav.slice(44)`). -/
def findDataGo (bytes : List Nat) : Nat → Nat → List Nat
  | 0, _ => bytes.drop 44
  | fuel + 1, offset =>
    if offset + 8 ≤ bytes.length then
      let sz := readUInt32LE bytes (offset + 4)
      if isDataChunkId bytes offset then (bytes.drop (offset + 8)).take sz
      else findDataGo bytes fuel (offset + 8 + sz + (sz &&& 1))
    else bytes.drop 44

/-- `base64ToPcm16` from audio.js (final iteration), applied to the decoded
base64 bytes: if the RIFF magic is present walk the chunk list for the
`data` chunk, else return the bytes unchanged. -/
def base64ToPcm16 (bytes : List Nat) : List Nat :=
  if isRiff bytes then findDataGo bytes bytes.length 12 else bytes

/-- The RIFF chunk list as described by claim C9: starting at offset 12,
each chunk is 8 header bytes plus its size plus one even-byte padding byte
when the size is odd.  Returns `(offset, size)` pairs. -/
def wavChunksGo (bytes : List Nat) : Nat → Nat → List (Nat × Nat)
  | 0, _ => []
  | fuel + 1, offset =>
    if offset + 8 ≤ bytes.length then
      let sz := readUInt32LE bytes (offset + 4)
      (offset, sz) :: wavChunksGo bytes fuel (offset + 8 + sz + (sz &&& 1))
    else []

/-- The chunk list of a RIFF file per claim C9. -/
def wavChunks (bytes : List Nat) : List (Nat × Nat) :=
  wavChunksGo bytes bytes.length 12

/- ───────────── Sentence chunking regex (pipeline.js SENTENCE_RE) ────────── -/

/-- The `[.!?]` character class of `SENTENCE_RE`. -/
def isSentPunct (c : Char) : Bool := c == '.' || c == '!' || c == '?'

/-- JavaScript `\s` (no unicode flag): tab, LF, VT, FF, CR, space, NBSP,
Ogham space, the U+2000–U+200A range, LS, PS, NNBSP, MMSP, ideographic space
and the BOM. -/
def isJsWhitespace (c : Char) : Bool :=
  c == ' ' || c == '\t' || c == '\n' || (c.val == 11) || (c.val == 12) || c == '\r' ||
    c.val == 160 || c.val == 5760 || (8192 ≤ c.val && c.val ≤ 8202) ||
    c.val == 8232 || c.val == 8233 || c.val == 8239 || c.val == 8287 ||
    c.val == 12288 || c.val == 65279

/-- `[A-Z]` of the lookbehind. -/
def isUpperAZ (c : Char) : Bool := 'A' ≤ c && c ≤ 'Z'

/-- `[a-z]` of the lookbehind. -/
def isLowerAZ (c : Char) : Bool := 'a' ≤ c && c ≤ 'z'

/-- `\d` of the lookbehind. -/
def isDigit09 (c : Char) : Bool := '0' ≤ c && c ≤ '9'

/-- The negative lookbehind `(?<![A-Z][a-z]{0,3}|\d)` of `SENTENCE_RE`
evaluated at position `i`: it blocks a match when some alternative —
an uppercase letter followed by `k ≤ 3` lowercase letters, or a digit —
matches ending at `i`. -/
def lookbehindBlocks (s : List Char) (i : Nat) : Bool :=
  (decide (1 ≤ i) && (s.getD (i - 1) ' ' |> isDigit09)) ||
    (List.range 4).any fun k =>
      decide (k + 1 ≤ i) && isUpperAZ (s.getD (i - k - 1) ' ') &&
        (List.range k).all fun j => isLowerAZ (s.getD (i - k + j) ' ')

/-- `SENTENCE_RE` matches starting at position `i`: the lookbehind passes and
some run of `n ≥ 1` characters from `[.!?]` starting at `i` is followed by a
whitespace character or the end of the string. -/
def sentenceMatchAt (s : List Char) (i : Nat) : Bool :=
  !lookbehindBlocks s i &&
    (List.range (s.length - i)).any fun m =>
      ((List.range (m + 1)).all fun j => isSentPunct (s.getD (i + j) ' ')) &&
        (i + (m + 1) == s.length || isJsWhitespace (s.getD (i + (m + 1)) ' '))

/-- `SENTENCE_RE.test buffer`: some position of the buffer matches.  In the
`text_delta` handler a `true` result flushes the whole accumulated buffer as
one TTS sentence. -/
def sentenceTest (s : List Char) : Bool :=
  (List.range s.length).any (sentenceMatchAt s)

/- ───── Parallel tool-call aggregation (realtime.js, final iteration) ────── -/

/-- An in-progress tool call as stored in `pendingFunctionCalls`:
`call_id → { name, args }`. -/
structure PendingCall where
  name : String
  args : String

/-- The `pendingFunctionCalls` map.  The source only uses `has`, `get`, `set`
and `delete` on it (never iteration), so a function to `Option` models the JS
`Map` exactly. -/
def PendingMap : Type := String → Option PendingCall

/-- `Map.set` / `Map.delete`. -/
def updPending (m : PendingMap) (k : String) (v : Option PendingCall) : PendingMap :=
  fun q => if q = k then v else m q

/-- The two realtime events that drive tool-call aggregation. -/
inductive RTEvent where
  | argsDelta (call_id name delta : String)
  | argsDone (call_id : String)

/-- A `function_call` event emitted to the pipeline; `args` is the parsed
argument value. -/
structure FnCall (A : Type) where
  call_id : String
  name : String
  args : A

/-- The `response.function_call_arguments.delta` / `.done` cases of
`_handleEvent` (final iteration): a delta creates the map entry on first
sight (capturing `event.name`) and appends to its `args`; a done removes the
entry, parses the accumulated arguments (`JSON.parse` is the abstract `parse`
parameter, `none` modeling the caught parse exception) and emits the
`function_call` event. -/
def handleArgsEvent {A : Type} (parse : String → Option A) (m : PendingMap) :
    RTEvent → PendingMap × List (FnCall A)
  | .argsDelta cid name delta =>
    match m cid with
    | none => (updPending m cid (some ⟨name, "" ++ delta⟩), [])
    | some p => (updPending m cid (some ⟨p.name, p.args ++ delta⟩), [])
  | .argsDone cid =>
    match m cid with
    | none => (m, [])
    | some p =>
      (updPending m cid none,
        match parse p.args with
        | some a => [⟨cid, p.name, a⟩]
        | none => [])

/-- Processing a whole stream of argument events, collecting the emitted
`function_call` events in order. -/
def runArgsEvents {A : Type} (parse : String → Option A) (m : PendingMap) :
    List RTEvent → PendingMap × List (FnCall A)
  | [] => (m, [])
  | e :: rest =>
    let s1 := handleArgsEvent parse m e
    let s2 := runArgsEvents parse s1.1 rest
    (s2.1, s1.2 ++ s2.2)

/-- Does this event carry an argument delta for `cid`? -/
def isDeltaFor (cid : String) : RTEvent → Bool
  | .argsDelta c _ _ => c == cid
  | .argsDone _ => false

/-- The `call_id`s of arguments-done events, in arrival order
(the arguments-completion order of claim C2). -/
def doneOrder : List RTEvent → List String
  | [] => []
  | .argsDone c :: rest => c :: doneOrder rest
  | .argsDelta _ _ _ :: rest => doneOrder rest

/-- Concatenation of all argument deltas for `cid`, in order. -/
def deltasFor (cid : String) : List RTEvent → String
  | [] => ""
  | .argsDelta c _ d :: rest =>
    if c = cid then d ++ deltasFor cid rest else deltasFor cid rest
  | .argsDone _ :: rest => deltasFor cid rest

/-- The function name of the first delta for `cid` (the one the client
captures). -/
def nameFor (cid : String) : List RTEvent → Option String
  | [] => none
  | .argsDelta c n _ :: rest => if c = cid then some n else nameFor cid rest
  | .argsDone _ :: rest => nameFor cid rest

/-- Every arguments-done event is preceded by at least one delta for the same
`call_id` (`seen` carries the ids already holding deltas). -/
def donesPreceded (seen : List String) : List RTEvent → Bool
  | [] => true
  | .argsDelta c _ _ :: rest => donesPreceded (c :: seen) rest
  | .argsDone c :: rest => seen.contains c && donesPreceded seen rest

/-- No delta for a `call_id` arrives after that `call_id`'s done event. -/
def noDeltaAfterDone : List RTEvent → Bool
  | [] => true
  | .argsDone c :: rest =>
    (rest.all fun e => !(isDeltaFor c e)) && noDeltaAfterDone rest
  | .argsDelta _ _ _ :: rest => noDeltaAfterDone rest

/-- Accumulated arguments of `cid` held in the map, `""` when absent. -/
def pendArgs (m : PendingMap) (cid : String) : String :=
  match m cid with
  | some p => p.args
  | none => ""

/-- The name the client will emit for `cid`: the stored one if the map has an
entry, else the name of the first delta still to come. -/
def pendName (m : PendingMap) (cid : String) (evs : List RTEvent) : String :=
  match m cid with
  | some p => p.name
  | none => (nameFor cid evs).getD ""

/- ───────── Turn-taking pipeline (pipeline.js with callmanager.js) ───────── -/

/-- Call lifecycle status: `connecting | active | ending | ended`. -/
inductive CallStatus where
  | connecting
  | active
  | ending
  | ended
deriving DecidableEq

/-- A transcript entry `{role, message, time_in_call_secs}`. -/
structure TranscriptEntry where
  role : String
  message : String
  time_in_call_secs : Nat
deriving DecidableEq

/-- The per-call session state: the fields of `CallSession` (callmanager.js)
touched by the pipeline, plus the fields `initPipeline` attaches.  Timers are
modeled by whether they are armed; `registered` models whether the
process-wide `callManager.sessions` map still holds this call;
`openaiResponseId` is the realtime client's `currentResponseId`; `wsOpen`
is `mediaStreamWs.readyState === OPEN`. -/
structure Session where
  status : CallStatus
  isSpeaking : Bool
  isAISpeaking : Bool
  speechBuffer : List Int
  vadAccumulator : List (List Int)
  preRollBuffer : List (List Int)
  vadInFlight : Bool
  speechStartCount : Nat
  speechStartedAt : Option Nat
  transcribeInFlight : Bool
  speechStartedDuringAI : Bool
  fastInterruptCount : Nat
  awaitingTurnConfirmation : Bool
  turnSilenceMs : Nat
  conversationItemIds : List String
  silenceTimerRunning : Bool
  maxDurationTimerRunning : Bool
  startTime : Nat
  transcript : List TranscriptEntry
  ttsBuffer : String
  ttsSentenceQueue : List String
  openaiResponseId : Option String
  openaiPresent : Bool
  wsOpen : Bool
  twilioStreamSid : Option String
  dynamicVariables : List (String × String)
  language : String
  registered : Bool
deriving DecidableEq

/-- Externally visible actions of the pipeline. -/
inductive Effect where
  | issueVAD (audio : List Int)
  | issueTurnCheck (audio : List Int)
  | issueSTT (audio : List Int)
  | sendUserMessage (text : String)
  | cancelResponse (id : String)
  | sendClear
  | disconnectLLM
  | resetVAD
  | postComplete (reason : String)
  | removeFromRegistry
deriving DecidableEq

/-- VAD reply event kinds. -/
inductive VadEventType where
  | speech_start
  | silence
  | speech_end
deriving DecidableEq

/-- The GPU service's VAD reply `{event, probability}`. -/
structure VadResult where
  event : VadEventType
  probability : ℚ
deriving DecidableEq

/-- The smart-turn reply `{complete, confidence}`. -/
structure TurnResult where
  complete : Bool
  confidence : ℚ
deriving DecidableEq

/-- An STT reply; `text = none` models a response without a `text` field. -/
structure SttResult where
  text : Option String
deriving DecidableEq

/-- `FAST_INTERRUPT_PROB = 0.6`. -/
def FAST_INTERRUPT_PROB : ℚ := 6 / 10

/-- `INTERRUPT_THRESHOLD = 1`. -/
def INTERRUPT_THRESHOLD : Nat := 1

/-- `PRE_ROLL_BATCHES = 2`. -/
def PRE_ROLL_BATCHES : Nat := 2

/-- `MAX_SPEECH_MS = 20000`. -/
def MAX_SPEECH_MS : Nat := 20000

/-- `MIN_SPEECH_MS = 200`. -/
def MIN_SPEECH_MS : Nat := 200

/-- `SMART_TURN_STOP_MS = 3000`. -/
def SMART_TURN_STOP_MS : Nat := 3000

/-- `isSilence` from audio.js: true iff every sample magnitude is at most
`SPEAKING_THRESHOLD = 20`. -/
def isSilence (buf : List Int) : Bool := buf.all fun x => decide (x.natAbs ≤ 20)

/-- JavaScript `String.trim` on both ends. -/
def jsTrim (s : String) : String :=
  String.mk (((s.data.dropWhile fun c => isJsWhitespace c).reverse.dropWhile
    fun c => isJsWhitespace c).reverse)

/-- `getDurationSeconds`: `Math.round((now - startTime) / 1000)`. -/
def getDurationSeconds (s : Session) (now : Nat) : Nat :=
  (now - s.startTime + 500) / 1000

/-- `interruptAI` (pipeline.js): cancel the in-flight LLM response, send a
telephony `clear` event when the socket is open, clear `isAISpeaking`, the
TTS token buffer and the pre-roll ring, and reset the TTS serial queue. -/
def interruptAI (s : Session) : Session × List Effect :=
  let efCancel : List Effect :=
    if s.openaiPresent then
      match s.openaiResponseId with
      | some rid => [.cancelResponse rid]
      | none => []
    else []
  let efClear : List Effect := if s.wsOpen then [.sendClear] else []
  ({ s with
      isAISpeaking := false, ttsBuffer := "", preRollBuffer := [],
      ttsSentenceQueue := [] },
    efCancel ++ efClear)

/-- `transcribeAndRespond` (pipeline.js): guarded by `transcribeInFlight`,
issues one STT request (its result is the external `r`; `none` models a
thrown request error, caught and logged), and on a non-empty trimmed
transcript appends it to the transcript and sends it to the LLM. -/
def transcribeAndRespond (s : Session) (audio : List Int) (r : Option SttResult)
    (now : Nat) : Session × List Effect :=
  if s.transcribeInFlight then (s, [])
  else
    match r with
    | none => ({ s with transcribeInFlight := false }, [.issueSTT audio])
    | some res =>
      match res.text with
      | none => ({ s with transcribeInFlight := false }, [.issueSTT audio])
      | some t =>
        let transcript := jsTrim t
        if transcript = "" then ({ s with transcribeInFlight := false }, [.issueSTT audio])
        else
          ({ s with
              transcribeInFlight := false,
              transcript := s.transcript ++
                [⟨"user", transcript, getDurationSeconds s now⟩] },
            [.issueSTT audio, .sendUserMessage transcript])

/-- The fast-interrupt path at the head of the VAD reply handler: while the
AI is speaking, a batch with probability at least 0.6 bumps the counter and
(the threshold being 1) immediately resets it and interrupts; any other batch
resets the counter. -/
def fastInterruptStep (s : Session) (vad : VadResult) : Session × List Effect :=
  if s.isAISpeaking then
    if FAST_INTERRUPT_PROB ≤ vad.probability then
      let s1 : Session := { s with fastInterruptCount := s.fastInterruptCount + 1 }
      if 1 ≤ s1.fastInterruptCount then
        interruptAI { s1 with fastInterruptCount := 0 }
      else (s1, [])
    else ({ s with fastInterruptCount := 0 }, [])
  else ({ s with fastInterruptCount := 0 }, [])

/-- The `speech_start` case of the VAD reply handler.  `s` and `ef0` are the
session and effects after the fast-interrupt path. -/
def speechStartBranch (s : Session) (ef0 : List Effect) (batch : List Int)
    (sttFb : Option SttResult) (now : Nat) : Session × List Effect :=
  let s : Session := { s with speechStartCount := s.speechStartCount + 1 }
  let s : Session :=
    if s.awaitingTurnConfirmation then
      let s : Session := { s with turnSilenceMs := 0 }
      let s : Session :=
        if !s.isSpeaking then
          { s with
            isSpeaking := true, speechStartedAt := some now,
            silenceTimerRunning := false }
        else s
      { s with speechBuffer := s.speechBuffer ++ batch }
    else if !s.isSpeaking then
      let s : Session := { s with
        isSpeaking := true, speechStartedAt := some now,
        silenceTimerRunning := false, speechStartedDuringAI := s.isAISpeaking }
      let s : Session :=
        if 0 < s.preRollBuffer.length then
          { s with speechBuffer := s.speechBuffer ++ s.preRollBuffer.flatten }
        else s
      { s with speechBuffer := s.speechBuffer ++ batch }
    else
      { s with speechBuffer := s.speechBuffer ++ batch }
  let fi2 :=
    if INTERRUPT_THRESHOLD ≤ s.speechStartCount ∧ s.isAISpeaking then
      interruptAI { s with speechStartedDuringAI := false }
    else (s, [])
  let s := fi2.1
  let ef1 := ef0 ++ fi2.2
  let maxHit : Bool := !s.awaitingTurnConfirmation &&
    (match s.speechStartedAt with
      | some t => decide (MAX_SPEECH_MS < now - t)
      | none => false)
  if maxHit then
    let speechAudio := s.speechBuffer
    let s : Session := { s with
      speechBuffer := [], isSpeaking := false,
      speechStartedAt := none, speechStartCount := 0,
      speechStartedDuringAI := false, awaitingTurnConfirmation := false,
      turnSilenceMs := 0 }
    if 0 < speechAudio.length then
      let tr := transcribeAndRespond s speechAudio sttFb now
      (tr.1, ef1 ++ tr.2)
    else (s, ef1)
  else (s, ef1)

/-- The `silence` case of the VAD reply handler. -/
def silenceBranch (s : Session) (ef0 : List Effect) (sttFb : Option SttResult)
    (now : Nat) : Session × List Effect :=
  if !s.awaitingTurnConfirmation then
    ({ s with speechStartCount := 0 }, ef0)
  else
    let s : Session := { s with turnSilenceMs := s.turnSilenceMs + 200 }
    if SMART_TURN_STOP_MS ≤ s.turnSilenceMs then
      let s : Session := { s with awaitingTurnConfirmation := false, turnSilenceMs := 0 }
      let audio := s.speechBuffer
      let s : Session := { s with
        speechBuffer := [], isSpeaking := false,
        speechStartedAt := none, speechStartCount := 0 }
      let tr := if 0 < audio.length then transcribeAndRespond s audio sttFb now
        else (s, [])
      ({ tr.1 with silenceTimerRunning := true }, ef0 ++ tr.2)
    else (s, ef0)

/-- The `speech_end` case of the VAD reply handler: minimum-duration gate,
STT-mute gate, empty-buffer check, then the parallel smart-turn + STT path. -/
def speechEndBranch (s : Session) (ef0 : List Effect) (turn : TurnResult)
    (sttEarly sttFb : Option SttResult) (now : Nat) : Session × List Effect :=
  let isCont := s.awaitingTurnConfirmation
  let dur : Nat := match s.speechStartedAt with
    | some t => now - t
    | none => 0
  let speechAudio := s.speechBuffer
  let s : Session := { s with
    speechBuffer := [], speechStartCount := 0,
    isSpeaking := false, speechStartedAt := none }
  if !isCont ∧ dur < MIN_SPEECH_MS then
    ({ s with
      speechStartedDuringAI := false, awaitingTurnConfirmation := false,
      turnSilenceMs := 0, silenceTimerRunning := true }, ef0)
  else if !isCont ∧ s.speechStartedDuringAI ∧
      s.speechStartCount < INTERRUPT_THRESHOLD then
    ({ s with
      speechStartedDuringAI := false, awaitingTurnConfirmation := false,
      turnSilenceMs := 0, silenceTimerRunning := true }, ef0)
  else
    let s : Session := { s with speechStartedDuringAI := false }
    if speechAudio.length = 0 then
      ({ s with
        awaitingTurnConfirmation := false, turnSilenceMs := 0,
        silenceTimerRunning := true }, ef0)
    else
      let ef1 := ef0 ++ [.issueTurnCheck speechAudio, .issueSTT speechAudio]
      if !turn.complete then
        ({ s with
          speechBuffer := s.speechBuffer ++ speechAudio,
          awaitingTurnConfirmation := true, turnSilenceMs := 0 }, ef1)
      else
        let s : Session := { s with awaitingTurnConfirmation := false, turnSilenceMs := 0 }
        let condA : Bool := !s.transcribeInFlight &&
          (match sttEarly with
            | some r => r.text.isSome
            | none => false)
        if condA then
          let txt : String := match sttEarly with
            | some r => r.text.getD ""
            | none => ""
          let transcript := jsTrim txt
          if transcript ≠ "" then
            ({ s with
                transcribeInFlight := false,
                transcript := s.transcript ++
                  [⟨"user", transcript, getDurationSeconds s now⟩],
                silenceTimerRunning := true },
              ef1 ++ [.sendUserMessage transcript])
          else
            ({ s with transcribeInFlight := false, silenceTimerRunning := true }, ef1)
        else if !s.transcribeInFlight then
          let tr := transcribeAndRespond s speechAudio sttFb now
          ({ tr.1 with silenceTimerRunning := true }, ef1 ++ tr.2)
        else
          ({ s with silenceTimerRunning := true }, ef1)

/-- The body of the `detectVAD` completion callback (pipeline.js): the status
guard, the fast-interrupt path, and the `speech_start` / `silence` /
`speech_end` state machine.  `batch` is the 200 ms batch the request was
issued with; `turn`, `sttEarly` and `sttFb` are the external replies of the
parallel smart-turn check, the parallel STT call (`none` = the logged
failure) and the sequential fallback STT call; `now` is `Date.now()`. -/
def handleVadBody (s0 : Session) (batch : List Int) (vad : VadResult)
    (turn : TurnResult) (sttEarly sttFb : Option SttResult) (now : Nat) :
    Session × List Effect :=
  if s0.status ≠ .active then (s0, [])
  else
    let fi := fastInterruptStep s0 vad
    match vad.event with
    | .speech_start => speechStartBranch fi.1 fi.2 batch sttFb now
    | .silence => silenceBranch fi.1 fi.2 sttFb now
    | .speech_end => speechEndBranch fi.1 fi.2 turn sttEarly sttFb now

/-- The whole `detectVAD` completion: on success run the handler body, on
failure do nothing (`.catch(() => {})`); either way the `finally` releases
the in-flight guard. -/
def vadComplete (s : Session) (outcome : Option VadResult) (batch : List Int)
    (turn : TurnResult) (sttEarly sttFb : Option SttResult) (now : Nat) :
    Session × List Effect :=
  let r := match outcome with
    | none => (s, [])
    | some vad => handleVadBody s batch vad turn sttEarly sttFb now
  ({ r.1 with vadInFlight := false }, r.2)

/-- `handleIncomingAudio` at 200 ms batch granularity (the chunk accumulator
has just spliced a full batch): update the pre-roll ring, drop pure-silence
batches when neither speaking nor awaiting turn confirmation, and either
capture the batch under the in-flight guard or mark the guard and issue the
VAD request. -/
def processBatch (s : Session) (batch : List Int) : Session × List Effect :=
  if s.status ≠ .active then (s, [])
  else
    let pr := s.preRollBuffer ++ [batch]
    let s : Session := { s with
      preRollBuffer :=
      if PRE_ROLL_BATCHES < pr.length then pr.drop 1 else pr }
    if isSilence batch && !s.isSpeaking && !s.awaitingTurnConfirmation then (s, [])
    else if s.vadInFlight then
      (if s.isSpeaking then { s with speechBuffer := s.speechBuffer ++ batch } else s, [])
    else ({ s with vadInFlight := true }, [.issueVAD batch])

/-- The VAD requests contained in an effect list. -/
def vadIssued (ef : List Effect) : List (List Int) :=
  ef.filterMap fun e =>
    match e with
    | .issueVAD a => some a
    | _ => none

/-- A session together with the multiset of in-flight VAD requests (each
carrying the batch its closure captured). -/
structure PipelineWorld where
  s : Session
  outstanding : List (List Int)
deriving DecidableEq

/-- Pipeline events: a 200 ms batch arrives, or an in-flight VAD request
completes (with the external replies the completion callback consumes). -/
inductive PEvent where
  | batch (b : List Int)
  | vadDone (outcome : Option VadResult) (turn : TurnResult)
      (sttEarly sttFb : Option SttResult) (now : Nat)
deriving DecidableEq

/-- One scheduler step; a completion event is only valid when a request is
outstanding. -/
def stepWorld (w : PipelineWorld) : PEvent → Option (PipelineWorld × List Effect)
  | .batch b =>
    let r := processBatch w.s b
    some ({ s := r.1, outstanding := w.outstanding ++ vadIssued r.2 }, r.2)
  | .vadDone outcome turn se sf now =>
    match w.outstanding with
    | [] => none
    | b :: rest =>
      let r := vadComplete w.s outcome b turn se sf now
      some ({ s := r.1, outstanding := rest ++ vadIssued r.2 }, r.2)

/-- Run a whole event trace, collecting effects. -/
def runTrace (w : PipelineWorld) : List PEvent → Option (PipelineWorld × List Effect)
  | [] => some (w, [])
  | e :: rest =>
    match stepWorld w e with
    | none => none
    | some r =>
      match runTrace r.1 rest with
      | none => none
      | some r2 => some (r2.1, r.2 ++ r2.2)

/-- A fresh active session as built by the `CallSession` constructor plus
`initPipeline` (status `active`, all buffers and counters initialized, both
timers armed, sockets open, registered). -/
def initialSession : Session where
  status := .active
  isSpeaking := false
  isAISpeaking := false
  speechBuffer := []
  vadAccumulator := []
  preRollBuffer := []
  vadInFlight := false
  speechStartCount := 0
  speechStartedAt := none
  transcribeInFlight := false
  speechStartedDuringAI := false
  fastInterruptCount := 0
  awaitingTurnConfirmation := false
  turnSilenceMs := 0
  conversationItemIds := []
  silenceTimerRunning := true
  maxDurationTimerRunning := true
  startTime := 0
  transcript := []
  ttsBuffer := ""
  ttsSentenceQueue := []
  openaiResponseId := none
  openaiPresent := true
  wsOpen := true
  twilioStreamSid := none
  dynamicVariables := []
  language := "en"
  registered := true

/-- The initial world: fresh session, no in-flight VAD request. -/
def initWorld : PipelineWorld where
  s := initialSession
  outstanding := []

/- ────────────── Cleanup path (pipeline.js cleanup, callmanager.js) ───────── -/

/-- `CallSession.end`: set status `ended` and clear both timers. -/
def sessionEnd (s : Session) : Session :=
  { s with
    status := .ended, silenceTimerRunning := false,
    maxDurationTimerRunning := false }

/-- `CallManager.remove`: when the registry still holds the call, end the
session again (idempotent) and delete the registry entry. -/
def managerRemove (s : Session) : Session × List Effect :=
  if s.registered then ({ sessionEnd s with registered := false }, [.removeFromRegistry])
  else (s, [])

/-- `cleanup` (pipeline.js): a no-op once status is `ended`; otherwise end the
session (status `ended`, timers cleared), disconnect the LLM socket when
present, best-effort reset server-side VAD, POST the completion payload, and
remove the session from the registry. -/
def cleanup (s : Session) (reason : String) : Session × List Effect :=
  if s.status = .ended then (s, [])
  else
    let s1 := sessionEnd s
    let ef1 : List Effect := if s1.openaiPresent then [.disconnectLLM] else []
    let r := managerRemove s1
    (r.1, ef1 ++ [.resetVAD, .postComplete reason] ++ r.2)

/-- `cleanup` called `n` times in a row, accumulating effects. -/
def cleanupN : Nat → Session → String → Session × List Effect
  | 0, s, _ => (s, [])
  | n + 1, s, reason =>
    let r := cleanup s reason
    let r2 := cleanupN n r.1 reason
    (r2.1, r.2 ++ r2.2)

/-- Concrete post-state for the C4 witness: one loud batch arrives on a fresh
session, issuing one VAD request. -/
def c4WitnessWorld : PipelineWorld where
  s := { initialSession with preRollBuffer := [[5000]], vadInFlight := true }
  outstanding := [[5000]]

/-- Concrete session for the C7 witness: the AI is mid-sentence with an
in-flight LLM response when the caller interrupts. -/
def c7WitnessSession : Session :=
  { initialSession with
    isAISpeaking := true, ttsBuffer := "We are open", ttsSentenceQueue := ["Hi."],
    preRollBuffer := [[3], [4]], openaiResponseId := some "resp_1",
    speechBuffer := [7, 8] }

/-- Concrete session for the C6 witness: a 1-second turn is held in the
speech buffer when the VAD reports speech_end. -/
def c6WitnessSession : Session :=
  { initialSession with
    isSpeaking := true, speechStartedAt := some 1000, speechBuffer := [1, 2, 3],
    speechStartCount := 2 }

/-- Concrete session for the C8 witness: a 120 ms burst (a cough) is in the
speech buffer when the VAD reports speech_end. -/
def c8WitnessSession : Session :=
  { initialSession with
    isSpeaking := true, speechStartedAt := some 1000, speechBuffer := [9, 9],
    speechStartCount := 1 }

/- DEFS-INSERT-POINT -/

/- ─────────────────────── Helper lemmas: μ-law codec ─────────────────────── -/

theorem and_two_pow_eq_div_mod (v k : Nat) : v &&& 2 ^ k = v / 2 ^ k % 2 * 2 ^ k := by
  rw [Nat.and_two_pow, Nat.testBit_to_div_mod]
  rcases Nat.mod_two_eq_zero_or_one (v / 2 ^ k) with h | h <;> simp [h]

theorem findExpGo_spec (v : Nat) (h1 : 128 ≤ v) (h2 : v < 32768) :
    findExpGo 7 16384 v ≤ 7 ∧
      2 ^ (findExpGo 7 16384 v + 7) ≤ v ∧ v < 2 ^ (findExpGo 7 16384 v + 8) := by
  have b14 : v &&& 16384 = v / 16384 % 2 * 16384 := and_two_pow_eq_div_mod v 14
  have b13 : v &&& 8192 = v / 8192 % 2 * 8192 := and_two_pow_eq_div_mod v 13
  have b12 : v &&& 4096 = v / 4096 % 2 * 4096 := and_two_pow_eq_div_mod v 12
  have b11 : v &&& 2048 = v / 2048 % 2 * 2048 := and_two_pow_eq_div_mod v 11
  have b10 : v &&& 1024 = v / 1024 % 2 * 1024 := and_two_pow_eq_div_mod v 10
  have b9 : v &&& 512 = v / 512 % 2 * 512 := and_two_pow_eq_div_mod v 9
  have b8 : v &&& 256 = v / 256 % 2 * 256 := and_two_pow_eq_div_mod v 8
  have b7 : v &&& 128 = v / 128 % 2 * 128 := and_two_pow_eq_div_mod v 7
  have e7 : findExpGo 7 16384 v = if v &&& 16384 ≠ 0 then 7 else findExpGo 6 8192 v := rfl
  have e6 : findExpGo 6 8192 v = if v &&& 8192 ≠ 0 then 6 else findExpGo 5 4096 v := rfl
  have e5 : findExpGo 5 4096 v = if v &&& 4096 ≠ 0 then 5 else findExpGo 4 2048 v := rfl
  have e4 : findExpGo 4 2048 v = if v &&& 2048 ≠ 0 then 4 else findExpGo 3 1024 v := rfl
  have e3 : findExpGo 3 1024 v = if v &&& 1024 ≠ 0 then 3 else findExpGo 2 512 v := rfl
  have e2 : findExpGo 2 512 v = if v &&& 512 ≠ 0 then 2 else findExpGo 1 256 v := rfl
  have e1 : findExpGo 1 256 v = if v &&& 256 ≠ 0 then 1 else findExpGo 0 128 v := rfl
  have e0 : findExpGo 0 128 v = 0 := rfl
  by_cases c14 : 16384 ≤ v
  · rw [e7, if_pos (by omega)]; norm_num; omega
  · rw [e7, if_neg (by omega), e6]
    by_cases c13 : 8192 ≤ v
    · rw [if_pos (by omega)]; norm_num; omega
    · rw [if_neg (by omega), e5]
      by_cases c12 : 4096 ≤ v
      · rw [if_pos (by omega)]; norm_num; omega
      · rw [if_neg (by omega), e4]
        by_cases c11 : 2048 ≤ v
        · rw [if_pos (by omega)]; norm_num; omega
        · rw [if_neg (by omega), e3]
          by_cases c10 : 1024 ≤ v
          · rw [if_pos (by omega)]; norm_num; omega
          · rw [if_neg (by omega), e2]
            by_cases c9 : 512 ≤ v
            · rw [if_pos (by omega)]; norm_num; omega
            · rw [if_neg (by omega), e1]
              by_cases c8 : 256 ≤ v
              · rw [if_pos (by omega)]; norm_num; omega
              · rw [if_neg (by omega), e0]; norm_num; omega

theorem lor_fields_pos : ∀ a ≤ 7, ∀ b ≤ 15, ((0 : Nat) ||| a <<< 4 ||| b) = 16 * a + b := by
  decide

theorem lor_fields_neg : ∀ a ≤ 7, ∀ b ≤ 15, ((128 : Nat) ||| a <<< 4 ||| b) = 128 + (16 * a + b) := by
  decide

theorem mulawEncode_eval (n : Nat) (h : n ≤ 32635) :
    ∃ e m, e ≤ 7 ∧ m < 16 ∧ 2 ^ (e + 7) ≤ n + 132 ∧ n + 132 < 2 ^ (e + 8) ∧
      m = (n + 132) / 2 ^ (e + 3) % 16 ∧
      mulawEncode ((n : Int)) = 255 - (16 * e + m) ∧
      (0 < n → mulawEncode (-((n : Int))) = 127 - (16 * e + m)) := by
  have hv : (((n : Int)) + 132).toNat = n + 132 := by omega
  obtain ⟨he7, hlo, hhi⟩ := findExpGo_spec (n + 132) (by omega) (by omega)
  refine ⟨findExpGo 7 16384 (n + 132), (n + 132) / 2 ^ (findExpGo 7 16384 (n + 132) + 3) % 16,
    he7, Nat.mod_lt _ (by norm_num), hlo, hhi, rfl, ?_, ?_⟩
  · show 255 - ((if ((n : Int)) < 0 then 128 else 0) ||| _ ||| _) = _
    rw [if_neg (by omega)]
    have hmag : (if ((n : Int)) < 0 then -((n : Int)) else ((n : Int))) = (n : Int) := by
      rw [if_neg (by omega)]
    rw [hmag]
    have hclip : (if ((n : Int)) > 32635 then (32635 : Int) else ((n : Int))) = (n : Int) := by
      rw [if_neg (by omega)]
    rw [hclip, hv, Nat.shiftRight_eq_div_pow,
      show (15 : Nat) = 2 ^ 4 - 1 by norm_num, Nat.and_pow_two_sub_one_eq_mod]
    exact congrArg (255 - ·)
      (lor_fields_pos _ he7 _ (Nat.le_of_lt_succ (Nat.mod_lt _ (by norm_num))))
  · intro hn
    show 255 - ((if -((n : Int)) < 0 then 128 else 0) ||| _ ||| _) = _
    rw [if_pos (by omega)]
    have hmag : (if -((n : Int)) < 0 then -(-((n : Int))) else -((n : Int))) = (n : Int) := by
      rw [if_pos (by omega)]; ring
    rw [hmag]
    have hclip : (if ((n : Int)) > 32635 then (32635 : Int) else ((n : Int))) = (n : Int) := by
      rw [if_neg (by omega)]
    rw [hclip, hv, Nat.shiftRight_eq_div_pow,
      show (15 : Nat) = 2 ^ 4 - 1 by norm_num, Nat.and_pow_two_sub_one_eq_mod]
    rw [lor_fields_neg _ he7 _ (Nat.le_of_lt_succ (Nat.mod_lt _ (by norm_num)))]
    have hm : (n + 132) / 2 ^ (findExpGo 7 16384 (n + 132) + 3) % 16 < 16 :=
      Nat.mod_lt _ (by norm_num)
    norm_num
    omega

theorem decode_fields_pos : ∀ x ≤ 127,
    (255 - x) % 256 = 255 - x ∧ (255 - (255 - x)) &&& 128 = 0 ∧
    ((255 - (255 - x)) >>> 4) &&& 7 = x / 16 ∧ (255 - (255 - x)) &&& 15 = x % 16 := by
  decide

theorem decode_fields_neg : ∀ x ≤ 127,
    (127 - x) % 256 = 127 - x ∧ (255 - (127 - x)) &&& 128 ≠ 0 ∧
    ((255 - (127 - x)) >>> 4) &&& 7 = x / 16 ∧ (255 - (127 - x)) &&& 15 = x % 16 := by
  decide

theorem mulawDecode_sub255 (x : Nat) (hx : x ≤ 127) :
    mulawDecode (255 - x) =
      EXP_LUT.getD (x / 16) 0 + Int.ofNat ((x % 16) <<< (x / 16 + 3)) := by
  obtain ⟨h1, h2, h3, h4⟩ := decode_fields_pos x hx
  show (if (255 - (255 - x) % 256) &&& 128 ≠ 0 then _ else _) = _
  rw [h1, if_neg (by simpa using h2), h3, h4]

theorem mulawDecode_sub127 (x : Nat) (hx : x ≤ 127) :
    mulawDecode (127 - x) =
      -(EXP_LUT.getD (x / 16) 0 + Int.ofNat ((x % 16) <<< (x / 16 + 3))) := by
  obtain ⟨h1, h2, h3, h4⟩ := decode_fields_neg x hx
  show (if (255 - (127 - x) % 256) &&& 128 ≠ 0 then _ else _) = _
  rw [h1, if_pos (by simpa using h2), h3, h4]

theorem mulaw_mag_bound (n e m : Nat) (he : e ≤ 7) (hm : m < 16)
    (h1 : 2 ^ (e + 7) ≤ n + 132) (h2 : n + 132 < 2 ^ (e + 8))
    (hq : m = (n + 132) / 2 ^ (e + 3) % 16) :
    32 * ((EXP_LUT.getD e 0 + Int.ofNat (m <<< (e + 3))) - (n : Int)).natAbs ≤ n + 132 ∧
    (4 ≤ n → 0 < EXP_LUT.getD e 0 + Int.ofNat (m <<< (e + 3))) := by
  interval_cases e <;>
    (simp only [EXP_LUT, List.getD, List.get?, Nat.shiftLeft_eq, Option.getD_some] at *;
      norm_num at *; omega)

/- ─────────────────────────── Claim C1 theorems ──────────────────────────── -/

/-- C1 counterexample: at PCM16 sample 16252 the μ-law round trip returns
16764, an error of 512 which is ≈ 3.15 % of the sample's magnitude, violating
the claimed 2.3 % bound (1000·512 = 512000 > 23·16252 = 373796). -/
theorem c1_counterexample :
    mulawDecode (mulawEncode 16252) = 16764 ∧
    ¬(1000 * (mulawDecode (mulawEncode 16252) - 16252).natAbs ≤
        23 * ((16252 : Int)).natAbs) := by
  decide

/-- C1 (amended): for every PCM16 sample `s` with `|s| ≤ 32635`, the μ-law
round trip `mulawDecode (mulawEncode s)` has quantization error at most
`(|s| + 132)/32` (≈ 3.2 % of the magnitude plus the bias, not 2.3 %), and
preserves the sign of `s` whenever `|s| ≥ 4` (samples with `|s| ≤ 3` decode
to 0). -/
theorem c1_mulaw_roundtrip (s : Int) (h : s.natAbs ≤ 32635) :
    32 * (mulawDecode (mulawEncode s) - s).natAbs ≤ s.natAbs + 132 ∧
    (4 ≤ s.natAbs →
      ((0 < mulawDecode (mulawEncode s)) ↔ 0 < s) ∧
      ((mulawDecode (mulawEncode s) < 0) ↔ s < 0)) := by
  rcases le_or_lt 0 s with hs | hs
  · obtain ⟨n, rfl⟩ := Int.eq_ofNat_of_zero_le hs
    simp only [Int.natAbs_ofNat] at h ⊢
    obtain ⟨e, m, he, hm, h1, h2, hq, henc, -⟩ := mulawEncode_eval n h
    have hx : 16 * e + m ≤ 127 := by omega
    have hdiv : (16 * e + m) / 16 = e := by omega
    have hmod : (16 * e + m) % 16 = m := by omega
    have hdec := mulawDecode_sub255 (16 * e + m) hx
    rw [hdiv, hmod] at hdec
    have hshow : mulawDecode (mulawEncode ((n : Nat) : Int)) =
        EXP_LUT.getD e 0 + Int.ofNat (m <<< (e + 3)) := by rw [henc, hdec]
    obtain ⟨hb, hpos⟩ := mulaw_mag_bound n e m he hm h1 h2 hq
    rw [hshow]
    refine ⟨hb, fun h4 => ?_⟩
    have := hpos h4
    constructor
    · constructor
      · intro _; exact_mod_cast by omega
      · intro _; exact this
    · constructor
      · intro hlt; omega
      · intro hlt; exact absurd hlt (by omega)
  · have hn0 : s = -((s.natAbs : Nat) : Int) := by omega
    have hnpos : 0 < s.natAbs := by omega
    obtain ⟨e, m, he, hm, h1, h2, hq, -, henc⟩ := mulawEncode_eval s.natAbs h
    have hx : 16 * e + m ≤ 127 := by omega
    have hdiv : (16 * e + m) / 16 = e := by omega
    have hmod : (16 * e + m) % 16 = m := by omega
    have hdec := mulawDecode_sub127 (16 * e + m) hx
    rw [hdiv, hmod] at hdec
    have hshow : mulawDecode (mulawEncode s) =
        -(EXP_LUT.getD e 0 + Int.ofNat (m <<< (e + 3))) := by
      rw [hn0]
      rw [show -(((s.natAbs : Nat) : Int)) = -((s.natAbs : Nat) : Int) from rfl] at *
      rw [show mulawEncode (-((s.natAbs : Nat) : Int)) = 127 - (16 * e + m) from
        henc hnpos]
      exact hdec
    obtain ⟨hb, hpos⟩ := mulaw_mag_bound s.natAbs e m he hm h1 h2 hq
    rw [hshow]
    constructor
    · omega
    · intro h4
      have := hpos h4
      constructor
      · constructor
        · intro hgt; omega
        · intro hgt; exact absurd hgt (by omega)
      · constructor
        · intro _; omega
        · intro _; omega

/-- C1 witness: the amended round-trip bound evaluated at sample 5000. -/
theorem c1_mulaw_roundtrip_witness :
    32 * (mulawDecode (mulawEncode 5000) - 5000).natAbs ≤ (5000 : Int).natAbs + 132 ∧
    (4 ≤ (5000 : Int).natAbs →
      ((0 < mulawDecode (mulawEncode 5000)) ↔ 0 < (5000 : Int)) ∧
      ((mulawDecode (mulawEncode 5000) < 0) ↔ (5000 : Int) < 0)) :=
  c1_mulaw_roundtrip 5000 (by norm_num)

/- ───────────────────── Helper lemmas: upsampling (C10) ──────────────────── -/

theorem flatMap_le16_length : ∀ l : List Int, (l.flatMap le16).length = 2 * l.length := by
  intro l
  induction l with
  | nil => rfl
  | cons x tail ih => simp [le16, List.flatMap_cons, ih]; omega

theorem upsamplePairs_length : ∀ l : List Int, l ≠ [] → (upsamplePairs l).length = 2 * l.length := by
  intro l
  induction l with
  | nil => intro hc; exact absurd rfl hc
  | cons x tail ih =>
    intro _
    cases tail with
    | nil => rfl
    | cons y rest =>
      have := ih (by simp)
      simp [upsamplePairs] at this ⊢
      omega

theorem upsamplePairs_spec : ∀ l : List Int, l ≠ [] → upsamplePairs l = c10SpecSamples l := by
  intro l
  induction l with
  | nil => intro hc; exact absurd rfl hc
  | cons x tail ih =>
    intro _
    cases tail with
    | nil => rfl
    | cons y rest =>
      have hih := ih (by simp)
      show x :: jsRoundMean x y :: upsamplePairs (y :: rest) = _
      rw [hih]
      simp only [c10SpecSamples, List.length_cons, Nat.add_sub_cancel,
        List.getLast?_cons_cons, List.range_succ_eq_map, List.flatMap_cons,
        List.flatMap_map, Function.comp, List.getD_cons_zero, List.getD_cons_succ,
        List.cons_append, List.nil_append]

/- ─────────────────────────── Claim C10 theorems ─────────────────────────── -/

/-- C10: for every non-empty μ-law buffer of `n` bytes, `twilioMulawToPcm16`
returns exactly `4 n` bytes (`2 n` PCM16 samples), and the sample sequence is:
each decoded 8 kHz sample except the last followed by the rounded arithmetic
mean of it and its successor, with the final decoded sample appearing twice at
the end. -/
theorem c10_twilioMulawToPcm16 (mu : List Nat) (h : mu ≠ []) :
    (twilioMulawToPcm16 mu).length = 4 * mu.length ∧
    upsamplePairs (mu.map mulawDecode) = c10SpecSamples (mu.map mulawDecode) := by
  have hne : mu.map mulawDecode ≠ [] := by simpa using h
  constructor
  · show ((upsamplePairs (mu.map mulawDecode)).flatMap le16).length = _
    rw [flatMap_le16_length, upsamplePairs_length _ hne, List.length_map]
    omega
  · exact upsamplePairs_spec _ hne

/-- C10 witness: the structure theorem evaluated on the 3-byte buffer
`[0x00, 0xFF, 0x64]`. -/
theorem c10_twilioMulawToPcm16_witness :
    (twilioMulawToPcm16 [0, 255, 100]).length = 4 * ([0, 255, 100] : List Nat).length ∧
    upsamplePairs (([0, 255, 100] : List Nat).map mulawDecode) =
      c10SpecSamples (([0, 255, 100] : List Nat).map mulawDecode) :=
  c10_twilioMulawToPcm16 [0, 255, 100] (by decide)

/- ─────────────────────── Helper lemmas: WAV walk (C9) ───────────────────── -/

theorem findDataGo_spec (bytes : List Nat) (o sz : Nat) :
    ∀ fuel off, (wavChunksGo bytes fuel off).find?
        (fun c => isDataChunkId bytes c.1) = some (o, sz) →
      findDataGo bytes fuel off = (bytes.drop (o + 8)).take sz := by
  intro fuel
  induction fuel with
  | zero => intro off hfind; simp [wavChunksGo] at hfind
  | succ fuel ih =>
    intro off hfind
    by_cases hlen : off + 8 ≤ bytes.length
    · rw [wavChunksGo, if_pos hlen] at hfind
      rw [findDataGo, if_pos hlen]
      by_cases hdata : isDataChunkId bytes off
      · rw [List.find?_cons_of_pos _ (by simpa using hdata)] at hfind
        rw [if_pos hdata]
        obtain ⟨rfl, rfl⟩ : off = o ∧ readUInt32LE bytes (off + 4) = sz := by
          constructor <;> (injection hfind with h2; rw [Prod.ext_iff] at h2; simp at h2; omega)
        rfl
      · rw [List.find?_cons_of_neg _ (by simpa using hdata)] at hfind
        rw [if_neg hdata]
        exact ih _ hfind
    · rw [wavChunksGo, if_neg hlen] at hfind
      simp at hfind

/- ─────────────────────────── Claim C9 theorems ──────────────────────────── -/

/-- C9: for every decoded byte buffer, `base64ToPcm16` (a) returns the bytes
unchanged when the RIFF magic is absent, and (b) when the RIFF magic is
present it walks the RIFF chunk list from offset 12 — advancing by the chunk
size plus 8 header bytes plus one even-byte padding byte when the size is odd
— and returns exactly the payload of the first `data` chunk. -/
theorem c9_base64ToPcm16 (bytes : List Nat) :
    (isRiff bytes = false → base64ToPcm16 bytes = bytes) ∧
    (isRiff bytes = true → ∀ o sz,
      (wavChunks bytes).find? (fun c => isDataChunkId bytes c.1) = some (o, sz) →
      base64ToPcm16 bytes = (bytes.drop (o + 8)).take sz) := by
  constructor
  · intro hno
    rw [base64ToPcm16, if_neg (by simp [hno])]
  · intro hyes o sz hfind
    rw [base64ToPcm16, if_pos (by simp [hyes])]
    exact findDataGo_spec bytes o sz bytes.length 12 hfind

/-- C9 witness: a RIFF file with a `JUNK` chunk of odd size 3 (hence one
padding byte) before the `data` chunk; the walker skips it and returns the
4-byte payload `[1, 2, 3, 4]`, and a non-RIFF buffer is returned unchanged. -/
theorem c9_base64ToPcm16_witness :
    base64ToPcm16
        [82, 73, 70, 70, 28, 0, 0, 0, 87, 65, 86, 69,
         74, 85, 78, 75, 3, 0, 0, 0, 9, 9, 9, 0,
         100, 97, 116, 97, 4, 0, 0, 0, 1, 2, 3, 4] = [1, 2, 3, 4] ∧
    base64ToPcm16 [7, 7, 7] = [7, 7, 7] := by
  constructor
  · have h := (c9_base64ToPcm16
      [82, 73, 70, 70, 28, 0, 0, 0, 87, 65, 86, 69,
       74, 85, 78, 75, 3, 0, 0, 0, 9, 9, 9, 0,
       100, 97, 116, 97, 4, 0, 0, 0, 1, 2, 3, 4]).2 (by decide) 24 4 (by decide)
    simpa using h
  · exact (c9_base64ToPcm16 [7, 7, 7]).1 (by decide)

/- ─────────────────── Helper lemmas: sentence regex (C3) ─────────────────── -/

theorem getD_append_length_add (l1 l2 : List Char) (k : Nat) (d : Char) :
    (l1 ++ l2).getD (l1.length + k) d = l2.getD k d := by
  induction l1 with
  | nil => simp
  | cons x xs ih =>
    show (x :: (xs ++ l2)).getD (xs.length + 1 + k) d = _
    rw [show xs.length + 1 + k = xs.length + k + 1 by omega, List.getD_cons_succ]
    exact ih

/- ─────────────────────────── Claim C3 theorems ──────────────────────────── -/

/-- C3 counterexample: the buffer `"See e.g."` contains the abbreviation
`e.g.`, yet `SENTENCE_RE` matches it (at the dot after the `g`), so the
chunker flushes the buffer there and does split the text before the word that
follows the abbreviation: the lookbehind `[A-Z][a-z]{0,3}|\d` does not cover
multi-letter lowercase dotted abbreviations. -/
theorem c3_counterexample :
    sentenceTest "See e.g.".toList = true ∧
    sentenceMatchAt "See e.g. this".toList 7 = true := by
  constructor <;> decide

/-- C3 (amended): the sentence chunker never matches at a sentence-punctuation
position that directly follows a decimal digit, a single capital letter, or a
capital letter plus a lowercase letter (covering `Mr.`, `Dr.`, single-capital
abbreviations and decimal numbers) — but lowercase multi-letter dotted
abbreviations such as `e.g.` are not protected and do get split. -/
theorem c3_chunker_amended :
    (∀ pre post : List Char, ∀ d, isDigit09 d = true →
      sentenceMatchAt (pre ++ d :: '.' :: post) (pre.length + 1) = false) ∧
    (∀ pre post : List Char, ∀ u, isUpperAZ u = true →
      sentenceMatchAt (pre ++ u :: '.' :: post) (pre.length + 1) = false) ∧
    (∀ pre post : List Char, ∀ u l, isUpperAZ u = true → isLowerAZ l = true →
      sentenceMatchAt (pre ++ u :: l :: '.' :: post) (pre.length + 2) = false) := by
  refine ⟨?_, ?_, ?_⟩
  · intro pre post d hd
    have hget : (pre ++ d :: '.' :: post).getD (pre.length + 1 - 1) ' ' = d := by
      rw [show pre.length + 1 - 1 = pre.length + 0 by omega, getD_append_length_add]
      rfl
    have hL : lookbehindBlocks (pre ++ d :: '.' :: post) (pre.length + 1) = true := by
      unfold lookbehindBlocks
      refine Bool.or_eq_true_iff.mpr (Or.inl (Bool.and_eq_true_iff.mpr ⟨by simp, ?_⟩))
      rw [hget]
      exact hd
    unfold sentenceMatchAt
    rw [hL]
    rfl
  · intro pre post u hu
    have hget : (pre ++ u :: '.' :: post).getD (pre.length + 1 - 0 - 1) ' ' = u := by
      rw [show pre.length + 1 - 0 - 1 = pre.length + 0 by omega, getD_append_length_add]
      rfl
    have hL : lookbehindBlocks (pre ++ u :: '.' :: post) (pre.length + 1) = true := by
      unfold lookbehindBlocks
      refine Bool.or_eq_true_iff.mpr (Or.inr (List.any_eq_true.mpr ⟨0, by simp, ?_⟩))
      refine Bool.and_eq_true_iff.mpr ⟨Bool.and_eq_true_iff.mpr ⟨by simp, ?_⟩, by simp⟩
      rw [hget]
      exact hu
    unfold sentenceMatchAt
    rw [hL]
    rfl
  · intro pre post u l hu hl
    have hgetu : (pre ++ u :: l :: '.' :: post).getD (pre.length + 2 - 1 - 1) ' ' = u := by
      rw [show pre.length + 2 - 1 - 1 = pre.length + 0 by omega, getD_append_length_add]
      rfl
    have hgetl : (pre ++ u :: l :: '.' :: post).getD (pre.length + 2 - 1 + 0) ' ' = l := by
      rw [show pre.length + 2 - 1 + 0 = pre.length + 1 by omega, getD_append_length_add]
      rfl
    have hL : lookbehindBlocks (pre ++ u :: l :: '.' :: post) (pre.length + 2) = true := by
      unfold lookbehindBlocks
      refine Bool.or_eq_true_iff.mpr (Or.inr (List.any_eq_true.mpr ⟨1, by simp, ?_⟩))
      refine Bool.and_eq_true_iff.mpr ⟨Bool.and_eq_true_iff.mpr ⟨by simp, ?_⟩, ?_⟩
      · rw [hgetu]
        exact hu
      · show (List.range 1).all _ = true
        show (isLowerAZ _ && _) = true
        rw [hgetl, hl]
        rfl
    unfold sentenceMatchAt
    rw [hL]
    rfl

/-- C3 witness: the amended theorem applied to `"Hello Mr"` + `"."` +
`" Smith"` (no split at the `Mr.` dot), to a single capital `"J."`, and to the
decimal point of `"3.14"`. -/
theorem c3_chunker_amended_witness :
    sentenceMatchAt ("Hello M".toList ++ 'r' :: '.' :: " Smith".toList)
      ("Hello M".toList.length + 2) = false ∧
    sentenceMatchAt ("".toList ++ 'J' :: '.' :: " Smith".toList)
      ("".toList.length + 1) = false ∧
    sentenceMatchAt ("pi is ".toList ++ '3' :: '.' :: "14 ok".toList)
      ("pi is ".toList.length + 1) = false :=
  ⟨c3_chunker_amended.2.2 "Hello M".toList " Smith".toList 'M' 'r' (by decide) (by decide),
   c3_chunker_amended.2.1 "".toList " Smith".toList 'J' (by decide),
   c3_chunker_amended.1 "pi is ".toList "14 ok".toList '3' (by decide)⟩

/- ─────────────── Helper lemmas: tool-call aggregation (C2) ──────────────── -/

theorem deltasFor_eq_empty (cid : String) :
    ∀ l : List RTEvent, (∀ e ∈ l, isDeltaFor cid e = false) → deltasFor cid l = "" := by
  intro l
  induction l with
  | nil => intro _; rfl
  | cons e rest ih =>
    intro h
    cases e with
    | argsDelta c n d =>
      have hc : ¬(c = cid) := by
        have := h _ (List.mem_cons_self _ _)
        simpa [isDeltaFor] using this
      show (if c = cid then d ++ deltasFor cid rest else deltasFor cid rest) = ""
      rw [if_neg hc]
      exact ih fun e he => h e (List.mem_cons_of_mem _ he)
    | argsDone c =>
      exact ih fun e he => h e (List.mem_cons_of_mem _ he)

theorem updPending_same (m : PendingMap) (k : String) (v : Option PendingCall) :
    updPending m k v k = v := by
  simp [updPending]

theorem updPending_other (m : PendingMap) (k q : String) (v : Option PendingCall)
    (h : q ≠ k) : updPending m k v q = m q := by
  simp [updPending, h]

theorem runArgsEvents_spec {A : Type} (parse : String → Option A) (f : String → A) :
    ∀ (evs : List RTEvent) (m : PendingMap) (seen : List String),
      donesPreceded seen evs = true →
      (∀ cid, cid ∈ seen → cid ∈ doneOrder evs → (m cid).isSome = true) →
      (doneOrder evs).Nodup →
      noDeltaAfterDone evs = true →
      (∀ cid ∈ doneOrder evs, parse (pendArgs m cid ++ deltasFor cid evs) = some (f cid)) →
      (runArgsEvents parse m evs).2 =
        (doneOrder evs).map fun cid => ⟨cid, pendName m cid evs, f cid⟩ := by
  intro evs
  induction evs with
  | nil => intro m seen _ _ _ _ _; rfl
  | cons e rest ih =>
    intro m seen hprec hinv hnodup hnoafter hparse
    cases e with
    | argsDelta c n d =>
      obtain ⟨p1, hs1, hn1, ha1⟩ :
          ∃ p1 : PendingCall,
            handleArgsEvent parse m (.argsDelta c n d) =
              (updPending m c (some p1), ([] : List (FnCall A))) ∧
            p1.name = pendName m c (.argsDelta c n d :: rest) ∧
            p1.args = pendArgs m c ++ d := by
        rcases hm : m c with _ | p0
        · exact ⟨⟨n, "" ++ d⟩, by simp [handleArgsEvent, hm],
            by simp [pendName, hm, nameFor], by simp [pendArgs, hm]⟩
        · exact ⟨⟨p0.name, p0.args ++ d⟩, by simp [handleArgsEvent, hm],
            by simp [pendName, hm], by simp [pendArgs, hm]⟩
      have hinv2 : ∀ cid, cid ∈ c :: seen → cid ∈ doneOrder rest →
          (updPending m c (some p1) cid).isSome = true := by
        intro cid hcs hd
        by_cases hcc : cid = c
        · subst hcc
          rw [updPending_same]
          rfl
        · rw [updPending_other _ _ _ _ hcc]
          refine hinv cid ?_ hd
          rcases List.mem_cons.mp hcs with h | h
          · exact absurd h hcc
          · exact h
      have hparse2 : ∀ cid ∈ doneOrder rest,
          parse (pendArgs (updPending m c (some p1)) cid ++ deltasFor cid rest) =
            some (f cid) := by
        intro cid hd
        by_cases hcc : cid = c
        · subst hcc
          have hp := hparse cid hd
          have hdf : deltasFor cid (RTEvent.argsDelta cid n d :: rest) =
              d ++ deltasFor cid rest := by
            show (if cid = cid then _ else _) = _
            rw [if_pos rfl]
          rw [hdf] at hp
          have hpa : pendArgs (updPending m cid (some p1)) cid = pendArgs m cid ++ d := by
            show (match updPending m cid (some p1) cid with
              | some p => p.args | none => "") = _
            rw [updPending_same]
            exact ha1
          rw [hpa, String.append_assoc]
          exact hp
        · have hpa : pendArgs (updPending m c (some p1)) cid = pendArgs m cid := by
            show (match updPending m c (some p1) cid with
              | some p => p.args | none => "") = _
            rw [updPending_other _ _ _ _ hcc]
            rfl
          have hdf : deltasFor cid (RTEvent.argsDelta c n d :: rest) =
              deltasFor cid rest := by
            show (if c = cid then _ else _) = _
            rw [if_neg fun h => hcc h.symm]
          rw [hpa]
          have hp := hparse cid hd
          rw [hdf] at hp
          exact hp
      show (handleArgsEvent parse m (.argsDelta c n d)).2 ++
          (runArgsEvents parse (handleArgsEvent parse m (.argsDelta c n d)).1 rest).2 = _
      rw [hs1]
      show (runArgsEvents parse (updPending m c (some p1)) rest).2 = _
      rw [ih (updPending m c (some p1)) (c :: seen) hprec hinv2 hnodup hnoafter hparse2]
      refine List.map_congr_left fun cid hd => ?_
      by_cases hcc : cid = c
      · subst hcc
        refine congrArg (fun nm => FnCall.mk cid nm (f cid)) ?_
        show (match updPending m cid (some p1) cid with
          | some p => p.name | none => (nameFor cid rest).getD "") = _
        rw [updPending_same]
        exact hn1
      · refine congrArg (fun nm => FnCall.mk cid nm (f cid)) ?_
        show (match updPending m c (some p1) cid with
          | some p => p.name | none => (nameFor cid rest).getD "") = _
        rw [updPending_other _ _ _ _ hcc]
        have hnf : nameFor cid (RTEvent.argsDelta c n d :: rest) = nameFor cid rest := by
          show (if c = cid then _ else _) = _
          rw [if_neg fun h => hcc h.symm]
        rw [pendName, hnf]
    | argsDone c =>
      obtain ⟨hcs, hrest⟩ := Bool.and_eq_true_iff.mp hprec
      have hcseen : c ∈ seen := by simpa using hcs
      have hsome := hinv c hcseen (List.mem_cons_self _ _)
      obtain ⟨p, hp⟩ := Option.isSome_iff_exists.mp hsome
      obtain ⟨hall, hafter⟩ := Bool.and_eq_true_iff.mp hnoafter
      obtain ⟨hcnot, hnodup2⟩ := List.nodup_cons.mp hnodup
      have hdrest : deltasFor c rest = "" :=
        deltasFor_eq_empty c rest fun e he => by
          have := List.all_eq_true.mp hall e he
          simpa using this
      have hpc : parse p.args = some (f c) := by
        have hptc := hparse c (List.mem_cons_self _ _)
        have e1 : pendArgs m c = p.args := by
          show (match m c with | some p => p.args | none => "") = _
          rw [hp]
        have e2 : deltasFor c (RTEvent.argsDone c :: rest) = "" := hdrest
        rw [e1, e2, String.append_empty] at hptc
        exact hptc
      have hinv2 : ∀ cid, cid ∈ seen → cid ∈ doneOrder rest →
          (updPending m c none cid).isSome = true := by
        intro cid hcs2 hd2
        have hcc : cid ≠ c := fun h => hcnot (h ▸ hd2)
        rw [updPending_other _ _ _ _ hcc]
        exact hinv cid hcs2 (List.mem_cons_of_mem _ hd2)
      have hparse2 : ∀ cid ∈ doneOrder rest,
          parse (pendArgs (updPending m c none) cid ++ deltasFor cid rest) =
            some (f cid) := by
        intro cid hd2
        have hcc : cid ≠ c := fun h => hcnot (h ▸ hd2)
        have hpa : pendArgs (updPending m c none) cid = pendArgs m cid := by
          show (match updPending m c none cid with
            | some p => p.args | none => "") = _
          rw [updPending_other _ _ _ _ hcc]
          rfl
        rw [hpa]
        exact hparse cid (List.mem_cons_of_mem _ hd2)
      show (handleArgsEvent parse m (.argsDone c)).2 ++
          (runArgsEvents parse (handleArgsEvent parse m (.argsDone c)).1 rest).2 = _
      have hs1 : handleArgsEvent parse m (.argsDone c) =
          (updPending m c none, [⟨c, p.name, f c⟩]) := by
        simp [handleArgsEvent, hp, hpc]
      rw [hs1]
      show FnCall.mk c p.name (f c) :: (runArgsEvents parse (updPending m c none) rest).2 = _
      rw [ih (updPending m c none) seen hrest hinv2 hnodup2 hafter hparse2]
      show _ = FnCall.mk c (pendName m c (RTEvent.argsDone c :: rest)) (f c) ::
        ((doneOrder rest).map fun cid => ⟨cid, pendName m cid (RTEvent.argsDone c :: rest), f cid⟩)
      have hpn : pendName m c (RTEvent.argsDone c :: rest) = p.name := by
        show (match m c with | some p => p.name | none => _) = _
        rw [hp]
      rw [hpn]
      refine congrArg (fun t => FnCall.mk c p.name (f c) :: t) ?_
      refine List.map_congr_left fun cid hd2 => ?_
      have hcc : cid ≠ c := fun h => hcnot (h ▸ hd2)
      refine congrArg (fun nm => FnCall.mk cid nm (f cid)) ?_
      show (match updPending m c none cid with
        | some p => p.name | none => (nameFor cid rest).getD "") = _
      rw [updPending_other _ _ _ _ hcc]
      rfl

/- ─────────────────────────── Claim C2 theorems ──────────────────────────── -/

/-- C2: when the LLM interleaves argument deltas for several concurrent tool
calls in one response — each done event preceded by at least one delta for
its `call_id`, one done per `call_id`, no deltas after a call's done, and each
call's accumulated argument string parsing successfully — the client (which
keys the accumulator by `call_id`) emits exactly K `function_call` events,
one per `call_id`, in arguments-completion order, each carrying the name of
the call's first delta and the parse of its concatenated deltas. -/
theorem c2_parallel_tool_calls {A : Type} (parse : String → Option A) (f : String → A)
    (evs : List RTEvent)
    (h1 : donesPreceded [] evs = true)
    (h2 : (doneOrder evs).Nodup)
    (h3 : noDeltaAfterDone evs = true)
    (h4 : ∀ cid ∈ doneOrder evs, parse (deltasFor cid evs) = some (f cid)) :
    (runArgsEvents parse (fun _ => none) evs).2 =
      ((doneOrder evs).map fun cid => ⟨cid, (nameFor cid evs).getD "", f cid⟩) ∧
    (runArgsEvents parse (fun _ => none) evs).2.length = (doneOrder evs).length := by
  have hmain := runArgsEvents_spec parse f evs (fun _ => none) [] h1
    (fun cid hc _ => absurd hc (List.not_mem_nil cid)) h2 h3
    (fun cid hd => by
      have hpa : pendArgs (fun _ => none) cid = "" := rfl
      rw [hpa, String.empty_append]
      exact h4 cid hd)
  constructor
  · rw [hmain]
    rfl
  · rw [hmain, List.length_map]

/-- C2 witness: two tool calls `A` and `B` stream interleaved deltas in one
response; `B` completes first, then `A`; exactly two `function_call` events
are emitted, in completion order `B`, `A`, with per-call accumulated
arguments. -/
theorem c2_parallel_tool_calls_witness :
    (runArgsEvents some (fun _ => none)
        [RTEvent.argsDelta "callA" "check_hours" "ab",
         RTEvent.argsDelta "callB" "get_address" "uv",
         RTEvent.argsDelta "callA" "" "cd",
         RTEvent.argsDone "callB",
         RTEvent.argsDone "callA"]).2 =
      [⟨"callB", "get_address", "uv"⟩, ⟨"callA", "check_hours", "abcd"⟩] ∧
    (runArgsEvents some (fun _ => none)
        [RTEvent.argsDelta "callA" "check_hours" "ab",
         RTEvent.argsDelta "callB" "get_address" "uv",
         RTEvent.argsDelta "callA" "" "cd",
         RTEvent.argsDone "callB",
         RTEvent.argsDone "callA"]).2.length = 2 := by
  have h := c2_parallel_tool_calls (A := String) some
    (fun cid => if cid = "callA" then "abcd" else "uv")
    [RTEvent.argsDelta "callA" "check_hours" "ab",
     RTEvent.argsDelta "callB" "get_address" "uv",
     RTEvent.argsDelta "callA" "" "cd",
     RTEvent.argsDone "callB",
     RTEvent.argsDone "callA"]
    (by decide) (by decide) (by decide) (by decide)
  obtain ⟨hl, hr⟩ := h
  refine ⟨?_, by rw [hr]; rfl⟩
  rw [hl]
  rfl

/- ──────────────── Helper lemmas: pipeline state machine ─────────────────── -/

theorem interruptAI_effects (s : Session) :
    ∀ e ∈ (interruptAI s).2,
      (∃ rid, e = Effect.cancelResponse rid) ∨ e = Effect.sendClear := by
  intro e he
  unfold interruptAI at he
  cases hcli : s.openaiPresent <;> cases hws : s.wsOpen <;>
    rcases hid : s.openaiResponseId with _ | rid <;>
    simp [hcli, hws, hid] at he <;>
    first
    | exact Or.inr he
    | exact Or.inl ⟨rid, he⟩
    | (rcases he with rfl | rfl
       · exact Or.inl ⟨rid, rfl⟩
       · exact Or.inr rfl)

theorem fastInterruptStep_state (s : Session) (vad : VadResult) :
    ((fastInterruptStep s vad).1.status = s.status ∧
      (fastInterruptStep s vad).1.isSpeaking = s.isSpeaking ∧
      (fastInterruptStep s vad).1.speechBuffer = s.speechBuffer ∧
      (fastInterruptStep s vad).1.transcript = s.transcript ∧
      (fastInterruptStep s vad).1.awaitingTurnConfirmation = s.awaitingTurnConfirmation ∧
      (fastInterruptStep s vad).1.turnSilenceMs = s.turnSilenceMs ∧
      (fastInterruptStep s vad).1.speechStartedAt = s.speechStartedAt ∧
      (fastInterruptStep s vad).1.speechStartCount = s.speechStartCount ∧
      (fastInterruptStep s vad).1.speechStartedDuringAI = s.speechStartedDuringAI ∧
      (fastInterruptStep s vad).1.transcribeInFlight = s.transcribeInFlight ∧
      (fastInterruptStep s vad).1.silenceTimerRunning = s.silenceTimerRunning ∧
      (fastInterruptStep s vad).1.vadInFlight = s.vadInFlight ∧
      (fastInterruptStep s vad).1.startTime = s.startTime) ∧
    ∀ e ∈ (fastInterruptStep s vad).2,
      (∃ rid, e = Effect.cancelResponse rid) ∨ e = Effect.sendClear := by
  simp only [fastInterruptStep]
  split_ifs <;>
    refine ⟨by simp [interruptAI], fun e he => ?_⟩
  · exact interruptAI_effects _ e he
  · simp at he
  · simp at he
  · simp at he

theorem transcribeAndRespond_effects (s : Session) (audio : List Int)
    (r : Option SttResult) (now : Nat) :
    ∀ e ∈ (transcribeAndRespond s audio r now).2,
      e = Effect.issueSTT audio ∨ ∃ t, e = Effect.sendUserMessage t := by
  intro e he
  unfold transcribeAndRespond at he
  rcases r with _ | ⟨_ | t⟩ <;> dsimp only at he <;> split_ifs at he <;>
    simp at he <;>
    first
    | exact Or.inl he
    | (rcases he with rfl | rfl
       · exact Or.inl rfl
       · exact Or.inr ⟨jsTrim t, rfl⟩)

theorem vadIssued_append (a b : List Effect) :
    vadIssued (a ++ b) = vadIssued a ++ vadIssued b :=
  List.filterMap_append a b _

theorem vadIssued_eq_nil (l : List Effect) (h : ∀ a, Effect.issueVAD a ∉ l) :
    vadIssued l = [] := by
  rw [vadIssued, List.filterMap_eq_nil_iff]
  intro e he
  cases e <;> simp
  next a => exact absurd he (h a)

theorem vadIssued_nil : vadIssued [] = [] := rfl

theorem vadIssued_pair (x : List Int) :
    vadIssued [Effect.issueTurnCheck x, Effect.issueSTT x] = [] := rfl

theorem vadIssued_send (t : String) : vadIssued [Effect.sendUserMessage t] = [] := rfl

theorem vadIssued_cons_turnCheck (x : List Int) (l : List Effect) :
    vadIssued (Effect.issueTurnCheck x :: l) = vadIssued l := rfl

theorem vadIssued_cons_stt (x : List Int) (l : List Effect) :
    vadIssued (Effect.issueSTT x :: l) = vadIssued l := rfl

theorem vadIssued_cons_send (t : String) (l : List Effect) :
    vadIssued (Effect.sendUserMessage t :: l) = vadIssued l := rfl

theorem vadIssued_interruptAI (s : Session) : vadIssued (interruptAI s).2 = [] := by
  unfold interruptAI
  cases s.openaiPresent <;> cases s.wsOpen <;>
    rcases s.openaiResponseId with _ | rid <;> simp [vadIssued]

theorem vadIssued_fastInterruptStep (s : Session) (vad : VadResult) :
    vadIssued (fastInterruptStep s vad).2 = [] := by
  simp only [fastInterruptStep]
  split_ifs <;> simp [vadIssued_nil, vadIssued_interruptAI]

theorem vadIssued_transcribeAndRespond (s : Session) (audio : List Int)
    (r : Option SttResult) (now : Nat) :
    vadIssued (transcribeAndRespond s audio r now).2 = [] := by
  unfold transcribeAndRespond
  rcases r with _ | ⟨_ | t⟩ <;> dsimp only <;> split_ifs <;> simp [vadIssued]

theorem vadIssued_speechStartBranch (s : Session) (ef0 : List Effect) (batch : List Int)
    (sttFb : Option SttResult) (now : Nat) (h0 : vadIssued ef0 = []) :
    vadIssued (speechStartBranch s ef0 batch sttFb now).2 = [] := by
  simp only [speechStartBranch]
  split_ifs <;>
    simp [vadIssued_append, h0, vadIssued_interruptAI, vadIssued_transcribeAndRespond,
      vadIssued_nil, vadIssued_pair, vadIssued_send, vadIssued_cons_turnCheck,
      vadIssued_cons_stt, vadIssued_cons_send]

theorem vadIssued_silenceBranch (s : Session) (ef0 : List Effect)
    (sttFb : Option SttResult) (now : Nat) (h0 : vadIssued ef0 = []) :
    vadIssued (silenceBranch s ef0 sttFb now).2 = [] := by
  simp only [silenceBranch]
  split_ifs <;>
    simp [vadIssued_append, h0, vadIssued_transcribeAndRespond, vadIssued_nil,
      vadIssued_pair, vadIssued_send, vadIssued_cons_turnCheck, vadIssued_cons_stt, vadIssued_cons_send]

theorem vadIssued_speechEndBranch (s : Session) (ef0 : List Effect) (turn : TurnResult)
    (sttEarly sttFb : Option SttResult) (now : Nat) (h0 : vadIssued ef0 = []) :
    vadIssued (speechEndBranch s ef0 turn sttEarly sttFb now).2 = [] := by
  simp only [speechEndBranch]
  split_ifs <;>
    simp [vadIssued_append, h0, vadIssued_transcribeAndRespond, vadIssued_nil,
      vadIssued_pair, vadIssued_send, vadIssued_cons_turnCheck, vadIssued_cons_stt, vadIssued_cons_send]

theorem vadIssued_handleVadBody (s0 : Session) (batch : List Int) (vad : VadResult)
    (turn : TurnResult) (sttEarly sttFb : Option SttResult) (now : Nat) :
    vadIssued (handleVadBody s0 batch vad turn sttEarly sttFb now).2 = [] := by
  simp only [handleVadBody]
  split_ifs
  · rfl
  · cases vad.event
    · exact vadIssued_speechStartBranch _ _ _ _ _ (vadIssued_fastInterruptStep s0 vad)
    · exact vadIssued_silenceBranch _ _ _ _ (vadIssued_fastInterruptStep s0 vad)
    · exact vadIssued_speechEndBranch _ _ _ _ _ _ (vadIssued_fastInterruptStep s0 vad)

theorem vadIssued_vadComplete (s : Session) (outcome : Option VadResult) (batch : List Int)
    (turn : TurnResult) (sttEarly sttFb : Option SttResult) (now : Nat) :
    vadIssued (vadComplete s outcome batch turn sttEarly sttFb now).2 = [] := by
  rcases outcome with _ | vad
  · rfl
  · exact vadIssued_handleVadBody s batch vad turn sttEarly sttFb now

theorem processBatch_cases (s : Session) (b : List Int) :
    ((processBatch s b).1.vadInFlight = s.vadInFlight ∧
      vadIssued (processBatch s b).2 = []) ∨
    (s.vadInFlight = false ∧ (processBatch s b).1.vadInFlight = true ∧
      vadIssued (processBatch s b).2 = [b]) := by
  simp only [processBatch]
  split_ifs <;>
    first
    | exact Or.inl ⟨by simp, rfl⟩
    | exact Or.inr ⟨by simp_all, by simp, rfl⟩

/-- The claim-C4 world invariant: the in-flight flag mirrors the single
outstanding VAD request. -/
def WorldInv (w : PipelineWorld) : Prop :=
  w.outstanding.length ≤ 1 ∧ (w.s.vadInFlight = true ↔ w.outstanding.length = 1)

theorem stepWorld_inv (w : PipelineWorld) (e : PEvent) (w2 : PipelineWorld)
    (ef : List Effect) (hinv : WorldInv w) (hstep : stepWorld w e = some (w2, ef)) :
    WorldInv w2 := by
  obtain ⟨hlen, hiff⟩ := hinv
  cases e with
  | batch b =>
    simp only [stepWorld] at hstep
    obtain ⟨rfl, rfl⟩ : ({
        s := (processBatch w.s b).1,
        outstanding := w.outstanding ++ vadIssued (processBatch w.s b).2 } :
          PipelineWorld) = w2 ∧ (processBatch w.s b).2 = ef := by
      constructor <;> (injection hstep with h2; rw [Prod.ext_iff] at h2; simp at h2; tauto)
    rcases processBatch_cases w.s b with ⟨hf, hi⟩ | ⟨hf0, hf1, hi⟩
    · refine ⟨by simp [hi, hlen], ?_⟩
      simp only [hi, List.append_nil]
      rw [hf]
      exact hiff
    · have hzero : w.outstanding.length = 0 := by
        rcases Nat.lt_or_ge w.outstanding.length 1 with h | h
        · omega
        · exfalso
          have : w.s.vadInFlight = true := hiff.mpr (by omega)
          rw [hf0] at this
          exact Bool.false_ne_true this
      refine ⟨by simp [hi, hzero], ?_⟩
      constructor
      · intro _
        simp [hi, hzero]
      · intro _
        exact hf1
  | vadDone outcome turn se sf now =>
    simp only [stepWorld] at hstep
    rcases hout : w.outstanding with _ | ⟨b, rest⟩
    · rw [hout] at hstep
      exact absurd hstep (by simp)
    · rw [hout] at hstep
      simp only [] at hstep
      obtain ⟨rfl, rfl⟩ : ({
          s := (vadComplete w.s outcome b turn se sf now).1,
          outstanding := rest ++
            vadIssued (vadComplete w.s outcome b turn se sf now).2 } :
            PipelineWorld) = w2 ∧ (vadComplete w.s outcome b turn se sf now).2 = ef := by
        constructor <;> (injection hstep with h2; rw [Prod.ext_iff] at h2; simp at h2; tauto)
      have hrest : rest = [] := by
        rw [hout] at hlen
        simp only [List.length_cons] at hlen
        exact List.eq_nil_of_length_eq_zero (by omega)
      have hvi := vadIssued_vadComplete w.s outcome b turn se sf now
      have hflag : (vadComplete w.s outcome b turn se sf now).1.vadInFlight = false := rfl
      subst hrest
      refine ⟨by simp [hvi], ?_⟩
      rw [hflag]
      simp [hvi]

theorem runTrace_inv : ∀ (evs : List PEvent) (w w2 : PipelineWorld) (ef : List Effect),
    WorldInv w → runTrace w evs = some (w2, ef) → WorldInv w2 := by
  intro evs
  induction evs with
  | nil =>
    intro w w2 ef hinv hrun
    obtain ⟨rfl, -⟩ : w = w2 ∧ ([] : List Effect) = ef := by
      injection hrun with h
      rw [Prod.ext_iff] at h
      simp at h
      tauto
    exact hinv
  | cons e rest ih =>
    intro w w2 ef hinv hrun
    simp only [runTrace] at hrun
    rcases hs : stepWorld w e with _ | r1
    · rw [hs] at hrun
      exact absurd hrun (by simp)
    · rw [hs] at hrun
      dsimp only at hrun
      rcases hr : runTrace r1.1 rest with _ | r2
      · rw [hr] at hrun
        exact absurd hrun (by simp)
      · rw [hr] at hrun
        dsimp only at hrun
        have hinv1 := stepWorld_inv w e r1.1 r1.2 hinv (by rw [hs])
        have := ih r1.1 r2.1 r2.2 hinv1 (by rw [hr])
        obtain ⟨rfl, -⟩ : r2.1 = w2 ∧ r1.2 ++ r2.2 = ef := by
          injection hrun with h
          rw [Prod.ext_iff] at h
          simp at h
          tauto
        exact this

/- ─────────────────────────── Claim C4 theorems ──────────────────────────── -/

/-- C4: (a) on every valid trace of 200 ms batches and VAD completions from a
fresh session, at most one VAD request is outstanding, and the in-flight flag
holds exactly when one is; (b) while a request is in flight an arriving batch
issues nothing and produces no effects — it is appended to the speech buffer
iff user-is-speaking and discarded otherwise; (c) a request is only issued
when the flag is clear, and the flag is set once it is issued; (d) a
completion clears the flag whether the request succeeded or failed. -/
theorem c4_vad_serialization :
    (∀ evs w2 ef, runTrace initWorld evs = some (w2, ef) →
      w2.outstanding.length ≤ 1 ∧ (w2.s.vadInFlight = true ↔ w2.outstanding.length = 1)) ∧
    (∀ s b, s.status = CallStatus.active → s.vadInFlight = true →
      (processBatch s b).2 = [] ∧
      (processBatch s b).1.vadInFlight = true ∧
      (processBatch s b).1.speechBuffer =
        (if s.isSpeaking = true then s.speechBuffer ++ b else s.speechBuffer)) ∧
    (∀ s b a, Effect.issueVAD a ∈ (processBatch s b).2 →
      s.vadInFlight = false ∧ (processBatch s b).1.vadInFlight = true) ∧
    (∀ w outcome turn se sf now w2 ef,
      stepWorld w (PEvent.vadDone outcome turn se sf now) = some (w2, ef) →
      w2.s.vadInFlight = false) := by
  refine ⟨?_, ?_, ?_, ?_⟩
  · intro evs w2 ef hrun
    exact runTrace_inv evs initWorld w2 ef ⟨by simp [initWorld], by simp [initWorld, initialSession]⟩ hrun
  · intro s b hact hflight
    simp only [processBatch]
    rw [if_neg (by simp [hact])]
    split_ifs with h1 h2 <;> simp_all
  · intro s b a hmem
    rcases processBatch_cases s b with ⟨hf, hi⟩ | ⟨hf0, hf1, -⟩
    · exfalso
      have : (a : List Int) ∈ vadIssued (processBatch s b).2 := by
        simp [vadIssued, List.mem_filterMap]
        exact ⟨Effect.issueVAD a, hmem, rfl⟩
      rw [hi] at this
      exact absurd this (List.not_mem_nil _)
    · exact ⟨hf0, hf1⟩
  · intro w outcome turn se sf now w2 ef hstep
    simp only [stepWorld] at hstep
    rcases hout : w.outstanding with _ | ⟨b, rest⟩
    · rw [hout] at hstep
      exact absurd hstep (by simp)
    · rw [hout] at hstep
      dsimp only at hstep
      obtain ⟨rfl, -⟩ : ({
          s := (vadComplete w.s outcome b turn se sf now).1,
          outstanding := rest ++
            vadIssued (vadComplete w.s outcome b turn se sf now).2 } :
            PipelineWorld) = w2 ∧ (vadComplete w.s outcome b turn se sf now).2 = ef := by
        injection hstep with h
        rw [Prod.ext_iff] at h
        simp at h
        tauto
      rfl

/-- C4 witness: a fresh session receives one loud 200 ms batch; one VAD
request is issued and the invariant holds on the resulting world. -/
theorem c4_vad_serialization_witness :
    c4WitnessWorld.outstanding.length ≤ 1 ∧
    (c4WitnessWorld.s.vadInFlight = true ↔ c4WitnessWorld.outstanding.length = 1) :=
  c4_vad_serialization.1 [PEvent.batch [5000]] c4WitnessWorld
    [Effect.issueVAD [5000]] (by decide)

/- ─────────────────────────── Claim C7 theorems ──────────────────────────── -/

/-- C7: when an LLM response is in flight and the telephony socket is open,
the interrupt action cancels the response, sends a telephony `clear` event,
clears `ai-is-speaking`, the TTS token buffer, the pre-roll ring and the TTS
serial queue — and leaves every other session field unchanged. -/
theorem c7_interrupt_frame (s : Session) (rid : String)
    (hresp : s.openaiResponseId = some rid) (hws : s.wsOpen = true)
    (hcli : s.openaiPresent = true) :
    (interruptAI s).2 = [Effect.cancelResponse rid, Effect.sendClear] ∧
    (interruptAI s).1.isAISpeaking = false ∧
    (interruptAI s).1.ttsBuffer = "" ∧
    (interruptAI s).1.preRollBuffer = [] ∧
    (interruptAI s).1.ttsSentenceQueue = [] ∧
    (interruptAI s).1.status = s.status ∧
    (interruptAI s).1.isSpeaking = s.isSpeaking ∧
    (interruptAI s).1.speechBuffer = s.speechBuffer ∧
    (interruptAI s).1.vadAccumulator = s.vadAccumulator ∧
    (interruptAI s).1.vadInFlight = s.vadInFlight ∧
    (interruptAI s).1.speechStartCount = s.speechStartCount ∧
    (interruptAI s).1.speechStartedAt = s.speechStartedAt ∧
    (interruptAI s).1.transcribeInFlight = s.transcribeInFlight ∧
    (interruptAI s).1.speechStartedDuringAI = s.speechStartedDuringAI ∧
    (interruptAI s).1.fastInterruptCount = s.fastInterruptCount ∧
    (interruptAI s).1.awaitingTurnConfirmation = s.awaitingTurnConfirmation ∧
    (interruptAI s).1.turnSilenceMs = s.turnSilenceMs ∧
    (interruptAI s).1.conversationItemIds = s.conversationItemIds ∧
    (interruptAI s).1.silenceTimerRunning = s.silenceTimerRunning ∧
    (interruptAI s).1.maxDurationTimerRunning = s.maxDurationTimerRunning ∧
    (interruptAI s).1.startTime = s.startTime ∧
    (interruptAI s).1.transcript = s.transcript ∧
    (interruptAI s).1.openaiResponseId = s.openaiResponseId ∧
    (interruptAI s).1.openaiPresent = s.openaiPresent ∧
    (interruptAI s).1.wsOpen = s.wsOpen ∧
    (interruptAI s).1.twilioStreamSid = s.twilioStreamSid ∧
    (interruptAI s).1.dynamicVariables = s.dynamicVariables ∧
    (interruptAI s).1.language = s.language ∧
    (interruptAI s).1.registered = s.registered := by
  simp [interruptAI, hresp, hws, hcli]

/-- C7 witness: the interrupt action on a session that is mid-synthesis with
response `resp_1` in flight. -/
theorem c7_interrupt_frame_witness :
    (interruptAI c7WitnessSession).2 =
      [Effect.cancelResponse "resp_1", Effect.sendClear] ∧
    (interruptAI c7WitnessSession).1.isAISpeaking = false ∧
    (interruptAI c7WitnessSession).1.ttsBuffer = "" ∧
    (interruptAI c7WitnessSession).1.preRollBuffer = [] ∧
    (interruptAI c7WitnessSession).1.ttsSentenceQueue = [] ∧
    (interruptAI c7WitnessSession).1.speechBuffer = c7WitnessSession.speechBuffer := by
  have h := c7_interrupt_frame c7WitnessSession "resp_1" rfl rfl rfl
  exact ⟨h.1, h.2.1, h.2.2.1, h.2.2.2.1, h.2.2.2.2.1, h.2.2.2.2.2.2.2.1⟩

/- ─────────────────── Helper lemmas: cleanup idempotence ─────────────────── -/

theorem cleanup_of_ended (s : Session) (reason : String) (h : s.status = .ended) :
    cleanup s reason = (s, []) := by
  simp [cleanup, h]

theorem cleanup_status_ended (s : Session) (reason : String) :
    (cleanup s reason).1.status = .ended := by
  unfold cleanup
  split_ifs with h
  · exact h
  · dsimp only [managerRemove, sessionEnd]
    split_ifs <;> rfl

theorem cleanupN_of_ended : ∀ (n : Nat) (s : Session) (reason : String),
    s.status = .ended → cleanupN n s reason = (s, []) := by
  intro n
  induction n with
  | zero => intro s reason _; rfl
  | succ n ih =>
    intro s reason h
    show (let r := cleanup s reason
      let r2 := cleanupN n r.1 reason
      ((r2.1, r.2 ++ r2.2) : Session × List Effect)) = (s, [])
    rw [cleanup_of_ended s reason h]
    dsimp only
    rw [ih s reason h]
    rfl

/- ─────────────────────────── Claim C5 theorems ──────────────────────────── -/

/-- C5: calling the cleanup routine `n ≥ 1` times equals calling it once —
the first call (on a live session with an LLM client, registered in the
registry) sets status `ended`, clears both timers, disconnects the LLM
socket, resets server-side VAD, posts the completion payload, removes the
session from the registry, and every subsequent call returns immediately
with no further effects. -/
theorem c5_cleanup_idempotent (s : Session) (reason : String) (n : Nat) (hn : 1 ≤ n) :
    cleanupN n s reason = cleanup s reason ∧
    (s.status ≠ .ended → s.openaiPresent = true → s.registered = true →
      (cleanup s reason).1.status = .ended ∧
      (cleanup s reason).1.silenceTimerRunning = false ∧
      (cleanup s reason).1.maxDurationTimerRunning = false ∧
      (cleanup s reason).1.registered = false ∧
      (cleanup s reason).2 =
        [Effect.disconnectLLM, Effect.resetVAD, Effect.postComplete reason,
          Effect.removeFromRegistry] ∧
      cleanup (cleanup s reason).1 reason = ((cleanup s reason).1, [])) := by
  constructor
  · obtain ⟨m, rfl⟩ : ∃ m, n = m + 1 := ⟨n - 1, by omega⟩
    show (let r := cleanup s reason
      let r2 := cleanupN m r.1 reason
      ((r2.1, r.2 ++ r2.2) : Session × List Effect)) = cleanup s reason
    dsimp only
    rw [cleanupN_of_ended m (cleanup s reason).1 reason (cleanup_status_ended s reason)]
    simp
  · intro hne hcli hreg
    refine ⟨cleanup_status_ended s reason, ?_, ?_, ?_, ?_, cleanup_of_ended _ reason
      (cleanup_status_ended s reason)⟩ <;>
      simp [cleanup, sessionEnd, managerRemove, hne, hcli, hreg]

/-- C5 witness: cleaning up a fresh active session twice equals cleaning it
up once, with the four teardown effects emitted exactly once. -/
theorem c5_cleanup_idempotent_witness :
    cleanupN 2 initialSession "ws_closed" = cleanup initialSession "ws_closed" ∧
    (cleanup initialSession "ws_closed").1.status = CallStatus.ended ∧
    (cleanup initialSession "ws_closed").2 =
      [Effect.disconnectLLM, Effect.resetVAD, Effect.postComplete "ws_closed",
        Effect.removeFromRegistry] := by
  have h := c5_cleanup_idempotent initialSession "ws_closed" 2 (by norm_num)
  have h2 := h.2 (by decide) rfl rfl
  exact ⟨h.1, h2.1, h2.2.2.2.2.1⟩

/- ─────────────────────────── Claim C6 theorems ──────────────────────────── -/

/-- C6: at a speech_end whose gates pass (non-empty buffer, and for a
non-continuation turn: at least 200 ms and not an STT-muted AI-echo turn),
when the parallel smart-turn check returns INCOMPLETE the flushed audio is
re-appended to the speech buffer (leaving it as it was), awaiting-turn-
confirmation is set, the turn-silence accumulator is reset to 0, and the
parallel STT result is discarded: the transcript is unchanged and nothing is
sent to the LLM — even though both the smart-turn and the STT request were
issued on the flushed audio. -/
theorem c6_smart_turn_incomplete (s0 : Session) (batch : List Int) (p : ℚ)
    (turn : TurnResult) (sttEarly sttFb : Option SttResult) (now : Nat)
    (hact : s0.status = CallStatus.active)
    (hincomplete : turn.complete = false)
    (hbuf : s0.speechBuffer ≠ [])
    (hmin : s0.awaitingTurnConfirmation = true ∨
      ¬((match s0.speechStartedAt with
          | some t => now - t
          | none => 0) < MIN_SPEECH_MS))
    (hmute : s0.awaitingTurnConfirmation = true ∨ s0.speechStartedDuringAI = false) :
    (handleVadBody s0 batch ⟨.speech_end, p⟩ turn sttEarly sttFb now).1.speechBuffer =
      s0.speechBuffer ∧
    (handleVadBody s0 batch ⟨.speech_end, p⟩ turn sttEarly sttFb
      now).1.awaitingTurnConfirmation = true ∧
    (handleVadBody s0 batch ⟨.speech_end, p⟩ turn sttEarly sttFb now).1.turnSilenceMs = 0 ∧
    (handleVadBody s0 batch ⟨.speech_end, p⟩ turn sttEarly sttFb now).1.transcript =
      s0.transcript ∧
    (∀ t, Effect.sendUserMessage t ∉
      (handleVadBody s0 batch ⟨.speech_end, p⟩ turn sttEarly sttFb now).2) ∧
    Effect.issueTurnCheck s0.speechBuffer ∈
      (handleVadBody s0 batch ⟨.speech_end, p⟩ turn sttEarly sttFb now).2 ∧
    Effect.issueSTT s0.speechBuffer ∈
      (handleVadBody s0 batch ⟨.speech_end, p⟩ turn sttEarly sttFb now).2 := by
  have hb : handleVadBody s0 batch ⟨.speech_end, p⟩ turn sttEarly sttFb now =
      speechEndBranch (fastInterruptStep s0 ⟨.speech_end, p⟩).1
        (fastInterruptStep s0 ⟨.speech_end, p⟩).2 turn sttEarly sttFb now := by
    simp only [handleVadBody]
    rw [if_neg (by simp [hact])]
  obtain ⟨⟨-, -, hbufE, htr, haw, -, hsa, -, hdu, -, -, -, -⟩, heff⟩ :=
    fastInterruptStep_state s0 ⟨.speech_end, p⟩
  rw [hb]
  simp only [speechEndBranch]
  rw [if_neg (by
    rw [haw, hsa]
    rcases hmin with hc | hd
    · rw [hc]
      simp
    · intro hcon
      exact hd hcon.2)]
  rw [if_neg (by
    rw [haw]
    simp only [hdu]
    rcases hmute with hc | hd
    · rw [hc]
      simp
    · rw [hd]
      intro hcon
      exact Bool.false_ne_true hcon.2.1)]
  rw [if_neg (by
    rw [hbufE]
    simpa using hbuf)]
  rw [if_pos (by rw [hincomplete]; rfl)]
  rw [hbufE]
  refine ⟨by simp, rfl, rfl, htr, ?_, ?_, ?_⟩
  · intro t hmem
    rcases List.mem_append.mp hmem with hmem | hmem
    · rcases heff _ hmem with ⟨rid, he⟩ | he <;> simp at he
    · simp at hmem
  · exact List.mem_append.mpr (Or.inr (by simp))
  · exact List.mem_append.mpr (Or.inr (by simp))

/-- C6 witness: a 1 s utterance flushed at speech_end with smart-turn
INCOMPLETE keeps the buffer, sets the awaiting flag, resets the silence
accumulator, and discards the parallel STT result "uh". -/
theorem c6_smart_turn_incomplete_witness :
    (handleVadBody c6WitnessSession [4] ⟨.speech_end, 1 / 2⟩ ⟨false, 7 / 10⟩
      (some ⟨some "uh"⟩) none 2000).1.speechBuffer = c6WitnessSession.speechBuffer ∧
    (handleVadBody c6WitnessSession [4] ⟨.speech_end, 1 / 2⟩ ⟨false, 7 / 10⟩
      (some ⟨some "uh"⟩) none 2000).1.awaitingTurnConfirmation = true ∧
    (handleVadBody c6WitnessSession [4] ⟨.speech_end, 1 / 2⟩ ⟨false, 7 / 10⟩
      (some ⟨some "uh"⟩) none 2000).1.turnSilenceMs = 0 ∧
    (handleVadBody c6WitnessSession [4] ⟨.speech_end, 1 / 2⟩ ⟨false, 7 / 10⟩
      (some ⟨some "uh"⟩) none 2000).1.transcript = c6WitnessSession.transcript := by
  have h := c6_smart_turn_incomplete c6WitnessSession [4] (1 / 2) ⟨false, 7 / 10⟩
    (some ⟨some "uh"⟩) none 2000 rfl rfl (by decide) (Or.inr (by decide)) (Or.inr rfl)
  exact ⟨h.1, h.2.1, h.2.2.1, h.2.2.2.1⟩

/- ─────────────────────────── Claim C8 theorems ──────────────────────────── -/

/-- C8: at a speech_end that is not a confirmation continuation and whose
measured turn duration is under 200 ms, the flushed speech buffer is
discarded, no STT request and no smart-turn request is issued, nothing is
sent to the LLM, and the silence hangup timer is restarted before the
handler returns. -/
theorem c8_min_speech_gate (s0 : Session) (batch : List Int) (p : ℚ)
    (turn : TurnResult) (sttEarly sttFb : Option SttResult) (now : Nat)
    (hact : s0.status = CallStatus.active)
    (hnotcont : s0.awaitingTurnConfirmation = false)
    (hdur : (match s0.speechStartedAt with
        | some t => now - t
        | none => 0) < MIN_SPEECH_MS) :
    (handleVadBody s0 batch ⟨.speech_end, p⟩ turn sttEarly sttFb now).1.speechBuffer =
      [] ∧
    (handleVadBody s0 batch ⟨.speech_end, p⟩ turn sttEarly sttFb
      now).1.silenceTimerRunning = true ∧
    (∀ a, Effect.issueSTT a ∉
      (handleVadBody s0 batch ⟨.speech_end, p⟩ turn sttEarly sttFb now).2) ∧
    (∀ a, Effect.issueTurnCheck a ∉
      (handleVadBody s0 batch ⟨.speech_end, p⟩ turn sttEarly sttFb now).2) ∧
    (∀ t, Effect.sendUserMessage t ∉
      (handleVadBody s0 batch ⟨.speech_end, p⟩ turn sttEarly sttFb now).2) := by
  have hb : handleVadBody s0 batch ⟨.speech_end, p⟩ turn sttEarly sttFb now =
      speechEndBranch (fastInterruptStep s0 ⟨.speech_end, p⟩).1
        (fastInterruptStep s0 ⟨.speech_end, p⟩).2 turn sttEarly sttFb now := by
    simp only [handleVadBody]
    rw [if_neg (by simp [hact])]
  obtain ⟨⟨-, -, -, -, haw, -, hsa, -, -, -, -, -, -⟩, heff⟩ :=
    fastInterruptStep_state s0 ⟨.speech_end, p⟩
  rw [hb]
  simp only [speechEndBranch]
  rw [if_pos (by
    rw [haw, hsa, hnotcont]
    exact ⟨rfl, hdur⟩)]
  refine ⟨rfl, rfl, ?_, ?_, ?_⟩ <;>
    (intro a hmem
     rcases heff _ hmem with ⟨rid, he⟩ | he <;> simp at he)

/-- C8 witness: a 120 ms burst is flushed at speech_end; the buffer is
discarded, no STT or smart-turn request is made, nothing reaches the LLM,
and the silence timer is re-armed. -/
theorem c8_min_speech_gate_witness :
    (handleVadBody c8WitnessSession [4] ⟨.speech_end, 1 / 2⟩ ⟨true, 9 / 10⟩
      (some ⟨some "ahem"⟩) none 1120).1.speechBuffer = [] ∧
    (handleVadBody c8WitnessSession [4] ⟨.speech_end, 1 / 2⟩ ⟨true, 9 / 10⟩
      (some ⟨some "ahem"⟩) none 1120).1.silenceTimerRunning = true := by
  have h := c8_min_speech_gate c8WitnessSession [4] (1 / 2) ⟨true, 9 / 10⟩
    (some ⟨some "ahem"⟩) none 1120 rfl rfl (by decide)
  exact ⟨h.1, h.2.1⟩
